import Mathlib

/-!
Verification development for the Change Detection & Variant Clustering Engine
(`scripts/analyze_diffs.py`, `scripts/weekly_report.py`, `scripts/db.py`).

The Python source is shallowly embedded below:
* strings are Lean `String`s (Python `str.lower()` is modelled on its ASCII
  fragment by `Char.toLower`; `str.strip()` uses Python's whitespace set);
* SHA-256 (`hashlib.sha256(...).hexdigest()`) is implemented in full over `Nat`
  with explicit reduction mod 2^32;
* grayscale images are row-major `List (List Nat)` matrices of 8-bit pixels;
  the OpenCV calls used by `detect_diff_boxes` (`absdiff`, `GaussianBlur` with
  kernel size 5 and sigma 0, `threshold`, `dilate`/`erode` with a 3x3
  rectangular kernel, `findContours` + `boundingRect`) are modelled by their
  documented semantics on such matrices;
* similarity scores (Python floats) are modelled as rationals;
* the sqlite tables `snapshot_pairs` / `snapshot_diffs` are lists of records,
  with `INSERT OR IGNORE` + the UNIQUE(snapshot_id_1, snapshot_id_2) index
  modelled explicitly.
-/

set_option maxRecDepth 200000

/-! ## Python string primitives -/

/-- Membership in Python's `str.strip()` whitespace set
(space, tab, newline, carriage return, vertical tab, form feed). -/
def isPySpace (c : Char) : Bool :=
  c = ' ' || c = '\t' || c = '\n' || c = '\r' || c = '\x0b' || c = '\x0c'

/-- Drop leading and trailing whitespace characters from a character list. -/
def stripChars (l : List Char) : List Char :=
  ((l.dropWhile isPySpace).reverse.dropWhile isPySpace).reverse

/-- Model of Python `str.strip()`: drop leading and trailing whitespace. -/
def pyStrip (s : String) : String :=
  String.mk (stripChars s.data)

/-- Model of Python `str.lower()` on its ASCII fragment: lower-case each
character (`A`-`Z` map to `a`-`z`, everything else is unchanged). -/
def pyLower (s : String) : String :=
  String.mk (s.data.map Char.toLower)

/-- Lexicographic comparison of character lists by code point. -/
def pyStrLtChars : List Char → List Char → Bool
  | _, [] => false
  | [], _ :: _ => true
  | a :: as, b :: bs =>
    if a < b then true else if b < a then false else pyStrLtChars as bs

/-- Model of Python `<` on strings: lexicographic comparison by code point
(an executable equivalent of the string order, proved so below). -/
def pyStrLt (a b : String) : Bool := pyStrLtChars a.data b.data

/-- Model of Python `text.split()` (split on whitespace runs, dropping empty
fragments); the accumulator holds the current word reversed. -/
def pyWordsAux : List Char → List Char → List String
  | [], acc => if acc.isEmpty then [] else [String.mk acc.reverse]
  | c :: cs, acc =>
    if isPySpace c then
      if acc.isEmpty then pyWordsAux cs []
      else String.mk acc.reverse :: pyWordsAux cs []
    else pyWordsAux cs (c :: acc)

/-- Model of `normalize_space` (weekly_report.py line 50):
`" ".join(text.split())`. -/
def normalize_space (s : String) : String :=
  String.intercalate " " (pyWordsAux s.data [])

/-! ## UTF-8 and SHA-256

`compute_variant_key` hashes `base.encode("utf-8")` with `hashlib.sha256` and
returns the lower-case hex digest.  Both are implemented executably so that
concrete key equalities and inequalities can be decided. -/

/-- UTF-8 encoding of one Unicode scalar value, as a list of byte values. -/
def utf8Char (c : Char) : List ℕ :=
  let n := c.toNat
  if n < 128 then [n]
  else if n < 2048 then [192 + n / 64, 128 + n % 64]
  else if n < 65536 then [224 + n / 4096, 128 + (n / 64) % 64, 128 + n % 64]
  else [240 + n / 262144, 128 + (n / 4096) % 64, 128 + (n / 64) % 64, 128 + n % 64]

/-- UTF-8 encoding of a string (model of Python `str.encode("utf-8")`). -/
def utf8Bytes (s : String) : List ℕ :=
  (s.data.map utf8Char).flatten

/-- Reduction of a natural number to an unsigned 32-bit word. -/
def u32 (n : ℕ) : ℕ := n % 4294967296

/-- Right rotation of a 32-bit word by `k` bits. -/
def rotr32 (k x : ℕ) : ℕ := u32 ((x >>> k) ||| (x <<< (32 - k)))

/-- SHA-256 big sigma-0 function. -/
def sha256S0 (x : ℕ) : ℕ := (rotr32 2 x) ^^^ (rotr32 13 x) ^^^ (rotr32 22 x)

/-- SHA-256 big sigma-1 function. -/
def sha256S1 (x : ℕ) : ℕ := (rotr32 6 x) ^^^ (rotr32 11 x) ^^^ (rotr32 25 x)

/-- SHA-256 small sigma-0 function. -/
def sha256s0 (x : ℕ) : ℕ := (rotr32 7 x) ^^^ (rotr32 18 x) ^^^ (x >>> 3)

/-- SHA-256 small sigma-1 function. -/
def sha256s1 (x : ℕ) : ℕ := (rotr32 17 x) ^^^ (rotr32 19 x) ^^^ (x >>> 10)

/-- The 64 SHA-256 round constants. -/
def sha256K : List ℕ :=
  [1116352408, 1899447441, 3049323471, 3921009573, 961987163, 1508970993,
   2453635748, 2870763221, 3624381080, 310598401, 607225278, 1426881987,
   1925078388, 2162078206, 2614888103, 3248222580, 3835390401, 4022224774,
   264347078, 604807628, 770255983, 1249150122, 1555081692, 1996064986,
   2554220882, 2821834349, 2952996808, 3210313671, 3336571891, 3584528711,
   113926993, 338241895, 666307205, 773529912, 1294757372, 1396182291,
   1695183700, 1986661051, 2177026350, 2456956037, 2730485921, 2820302411,
   3259730800, 3345764771, 3516065817, 3600352804, 4094571909, 275423344,
   430227734, 506948616, 659060556, 883997877, 958139571, 1322822218,
   1537002063, 1747873779, 1955562222, 2024104815, 2227730452, 2361852424,
   2428436474, 2756734187, 3204031479, 3329325298]

/-- The SHA-256 initial hash state. -/
def sha256H0 : List ℕ :=
  [1779033703, 3144134277, 1013904242, 2773480762,
   1359893119, 2600822924, 528734635, 1541459225]

/-- SHA-256 message padding: append `0x80`, zero bytes, and the 64-bit
big-endian bit length, reaching a multiple of 64 bytes. -/
def sha256Pad (msg : List ℕ) : List ℕ :=
  let len := msg.length
  let padLen := (119 - len % 64) % 64
  let bits := 8 * len
  msg ++ [128] ++ List.replicate padLen 0 ++
    ((List.range 8).map fun i => (bits >>> (8 * (7 - i))) % 256)

/-- Split a byte list (whose length is a multiple of 64 after padding) into
its 64-byte blocks. -/
def sha256Blocks (l : List ℕ) : List (List ℕ) :=
  (List.range (l.length / 64)).map fun i => (l.drop (64 * i)).take 64

/-- Pack consecutive byte quadruples into big-endian 32-bit words. -/
def bytesToWords : List ℕ → List ℕ
  | b0 :: b1 :: b2 :: b3 :: rest =>
    (b0 * 16777216 + b1 * 65536 + b2 * 256 + b3) :: bytesToWords rest
  | _ => []

/-- Extend the 16 words of a block to the 64-entry message schedule. -/
def sha256Schedule (ws : List ℕ) : List ℕ :=
  (List.range 48).foldl
    (fun w _ =>
      let n := w.length
      w ++ [u32 (sha256s1 (w.getD (n - 2) 0) + w.getD (n - 7) 0 +
                 sha256s0 (w.getD (n - 15) 0) + w.getD (n - 16) 0)])
    ws

/-- Working state of the SHA-256 compression function. -/
structure Sha256State where
  a : ℕ
  b : ℕ
  c : ℕ
  d : ℕ
  e : ℕ
  f : ℕ
  g : ℕ
  h : ℕ
deriving DecidableEq

/-- One SHA-256 compression round with schedule word `w` and constant `k`. -/
def sha256Round (st : Sha256State) (wk : ℕ × ℕ) : Sha256State :=
  let t1 := u32 (st.h + sha256S1 st.e + ((st.e &&& st.f) ^^^ ((2 ^ 32 - 1 - st.e) &&& st.g))
                 + wk.2 + wk.1)
  let t2 := u32 (sha256S0 st.a + ((st.a &&& st.b) ^^^ (st.a &&& st.c) ^^^ (st.b &&& st.c)))
  { a := u32 (t1 + t2), b := st.a, c := st.b, d := st.c,
    e := u32 (st.d + t1), f := st.e, g := st.f, h := st.g }

/-- Process one 64-byte block, updating the 8-word hash value. -/
def sha256Block (hv : List ℕ) (block : List ℕ) : List ℕ :=
  let ws := sha256Schedule (bytesToWords block)
  let st0 : Sha256State :=
    { a := hv.getD 0 0, b := hv.getD 1 0, c := hv.getD 2 0, d := hv.getD 3 0,
      e := hv.getD 4 0, f := hv.getD 5 0, g := hv.getD 6 0, h := hv.getD 7 0 }
  let st := (ws.zip sha256K).foldl sha256Round st0
  [u32 (hv.getD 0 0 + st.a), u32 (hv.getD 1 0 + st.b), u32 (hv.getD 2 0 + st.c),
   u32 (hv.getD 3 0 + st.d), u32 (hv.getD 4 0 + st.e), u32 (hv.getD 5 0 + st.f),
   u32 (hv.getD 6 0 + st.g), u32 (hv.getD 7 0 + st.h)]

/-- SHA-256 digest of a byte list, as eight 32-bit words. -/
def sha256Words (msg : List ℕ) : List ℕ :=
  (sha256Blocks (sha256Pad msg)).foldl sha256Block sha256H0

/-- Lower-case hexadecimal digit characters. -/
def hexDigit (n : ℕ) : Char :=
  "0123456789abcdef".data.getD n '0'

/-- Lower-case hexadecimal rendering of one 32-bit word (8 digits). -/
def wordToHex (w : ℕ) : List Char :=
  (List.range 8).map fun i => hexDigit ((w >>> (4 * (7 - i))) % 16)

/-- Model of `hashlib.sha256(bytes).hexdigest()`: the 64-character lower-case
hex digest of a byte list. -/
def sha256Hex (msg : List ℕ) : String :=
  String.mk ((sha256Words msg).map wordToHex).flatten

/-! ## VariantKeyComputer (weekly_report.py, `compute_variant_key`) -/

/-- Fallback branch of `compute_variant_key` (weekly_report.py lines 195-198):
`elif fallback: base = fallback.strip().lower()` then hash, `else: return None`.
Python truthiness of the optional string is `fb` being present and non-empty. -/
def fallbackKey (fallback : Option String) : Option String :=
  match fallback with
  | some fb =>
    if fb ≠ "" then some (sha256Hex (utf8Bytes (pyLower (pyStrip fb)))) else none
  | none => none

/-! ## ImageDiffEngine (analyze_diffs.py, `detect_diff_boxes`)

Images are row-major matrices of 8-bit grayscale pixels.  The source loads
BGR images, converts them to grayscale and, when the two shapes differ,
resamples the second image to the first's shape (analyze_diffs.py lines
75-79); the embedding starts from the resulting pair of equal-shape
grayscale matrices.  The OpenCV library calls are modelled by their
documented semantics:

* `cv2.absdiff` is the pointwise absolute difference;
* `cv2.GaussianBlur(.., (5, 5), 0)` is the separable convolution with the
  kernel `[1, 4, 6, 4, 1] / 16` on each axis (OpenCV's fixed small-Gaussian
  kernel for size 5 with sigma 0) and `BORDER_REFLECT_101` border handling;
  the embedding keeps the exact value scaled by 256 instead of rounding to
  8 bits, and the subsequent threshold compares against `25 * 256`;
* `cv2.threshold(.., 25, 255, THRESH_BINARY)` maps a pixel to 255 when its
  value is strictly greater than the threshold and to 0 otherwise;
* `cv2.dilate` / `cv2.erode` with a 3x3 rectangular structuring element are
  the separable 3-window maximum / minimum, with out-of-image neighbours
  ignored for dilation and taken as white for erosion (OpenCV's default
  morphology border value);
* `cv2.findContours(.., RETR_EXTERNAL, ..)` followed by `cv2.boundingRect`
  yields the axis-aligned bounding boxes of the 8-connected components of
  the white mask. -/

/-- Height of an image (number of rows, `img.shape[0]`). -/
def imgHeight (img : List (List ℕ)) : ℕ := img.length

/-- Width of an image (number of columns, `img.shape[1]`). -/
def imgWidth (img : List (List ℕ)) : ℕ := (img.headD []).length

/-- Absolute difference of two natural numbers. -/
def natAbsDiff (a b : ℕ) : ℕ := max a b - min a b

/-- Model of `cv2.absdiff`: pointwise absolute difference of two images. -/
def absdiffImg (img1 img2 : List (List ℕ)) : List (List ℕ) :=
  img1.zipWith (fun r1 r2 => r1.zipWith natAbsDiff r2) img2

/-- Sliding 5-window weighted sums with weights `[1, 4, 6, 4, 1]`; the first
four window entries are carried explicitly so the recursion is structural. -/
def win5Aux (a b c d : ℕ) : List ℕ → List ℕ
  | [] => []
  | e :: rest => (a + 4 * b + 6 * c + 4 * d + e) :: win5Aux b c d e rest

/-- All 5-window weighted sums of a list. -/
def win5 : List ℕ → List ℕ
  | a :: b :: c :: d :: rest => win5Aux a b c d rest
  | _ => []

/-- Two-pixel `BORDER_REFLECT_101` padding of one row: virtual indices
`-1, -2` read pixels `1, 2` and indices `n, n + 1` read `n - 2, n - 3`. -/
def reflectPad2 (row : List ℕ) : List ℕ :=
  [row.getD 2 0, row.getD 1 0] ++ row ++
    [row.getD (row.length - 2) 0, row.getD (row.length - 3) 0]

/-- One-dimensional pass of the size-5 Gaussian: each output is 16 times the
exact blurred value of the input row. -/
def blurRow (row : List ℕ) : List ℕ :=
  win5 (reflectPad2 row)

/-- Elementwise `a + 4*b + 6*c + 4*d + e` over five equal-length rows. -/
def row5Sum (a b c d e : List ℕ) : List ℕ :=
  (((a.zipWith (fun x y => x + 4 * y) b).zipWith (fun x y => x + 6 * y) c).zipWith
      (fun x y => x + 4 * y) d).zipWith (fun x y => x + y) e

/-- Sliding 5-window weighted sums over the rows of an image (the vertical
pass of the separable Gaussian). -/
def vwin5Aux (a b c d : List ℕ) : List (List ℕ) → List (List ℕ)
  | [] => []
  | e :: rest => row5Sum a b c d e :: vwin5Aux b c d e rest

/-- Two-row `BORDER_REFLECT_101` padding of an image along the vertical axis. -/
def reflectPadRows (img : List (List ℕ)) : List (List ℕ) :=
  [img.getD 2 [], img.getD 1 []] ++ img ++
    [img.getD (img.length - 2) [], img.getD (img.length - 3) []]

/-- Vertical pass of the size-5 Gaussian over the rows of an image. -/
def blurCols (img : List (List ℕ)) : List (List ℕ) :=
  match reflectPadRows img with
  | a :: b :: c :: d :: rest => vwin5Aux a b c d rest
  | _ => []

/-- Model of `cv2.GaussianBlur(img, (5, 5), 0)` scaled by 256: the separable
`[1, 4, 6, 4, 1] / 16` convolution on rows and then on columns, keeping the
numerator of the exact value over the denominator 256. -/
def gaussianBlur256 (img : List (List ℕ)) : List (List ℕ) :=
  blurCols (img.map blurRow)

/-- Model of `cv2.threshold(diff_blur, 25, 255, cv2.THRESH_BINARY)` applied
to the 256-scaled blur: a pixel becomes 255 when its exact blurred value is
strictly greater than 25, i.e. when the scaled value exceeds `25 * 256`. -/
def thresholdBinary256 (img : List (List ℕ)) : List (List ℕ) :=
  img.map fun row => row.map fun v => if 6400 < v then 255 else 0

/-- Sliding 3-window maxima (out-of-image neighbours are absent, which the
caller realises by padding with 0, the identity of `max` on pixels). -/
def win3MaxAux (a b : ℕ) : List ℕ → List ℕ
  | [] => []
  | c :: rest => max a (max b c) :: win3MaxAux b c rest

/-- Sliding 3-window minima (the caller pads with 255, the erosion border
value, so out-of-image neighbours never erode). -/
def win3MinAux (a b : ℕ) : List ℕ → List ℕ
  | [] => []
  | c :: rest => min a (min b c) :: win3MinAux b c rest

/-- One-dimensional dilation pass of one row. -/
def dilateRow (row : List ℕ) : List ℕ :=
  match 0 :: (row ++ [0]) with
  | a :: b :: rest => win3MaxAux a b rest
  | _ => []

/-- One-dimensional erosion pass of one row. -/
def erodeRow (row : List ℕ) : List ℕ :=
  match 255 :: (row ++ [255]) with
  | a :: b :: rest => win3MinAux a b rest
  | _ => []

/-- Elementwise maximum of three equal-length rows. -/
def row3Max (a b c : List ℕ) : List ℕ := (a.zipWith max b).zipWith max c

/-- Elementwise minimum of three equal-length rows. -/
def row3Min (a b c : List ℕ) : List ℕ := (a.zipWith min b).zipWith min c

/-- Sliding 3-window row maxima (vertical pass of the dilation). -/
def vwin3MaxAux (a b : List ℕ) : List (List ℕ) → List (List ℕ)
  | [] => []
  | c :: rest => row3Max a b c :: vwin3MaxAux b c rest

/-- Sliding 3-window row minima (vertical pass of the erosion). -/
def vwin3MinAux (a b : List ℕ) : List (List ℕ) → List (List ℕ)
  | [] => []
  | c :: rest => row3Min a b c :: vwin3MinAux b c rest

/-- Model of one iteration of `cv2.dilate` with the 3x3 rectangular kernel:
the separable 3-window maximum over columns and then rows, padding with 0
(out-of-image neighbours never contribute to a maximum). -/
def dilate3 (img : List (List ℕ)) : List (List ℕ) :=
  let w := imgWidth img
  match List.replicate w 0 :: (img.map dilateRow ++ [List.replicate w 0]) with
  | a :: b :: rest => vwin3MaxAux a b rest
  | _ => []

/-- Model of one iteration of `cv2.erode` with the 3x3 rectangular kernel:
the separable 3-window minimum over columns and then rows, padding with 255
(out-of-image neighbours never erode, OpenCV's default border for erosion). -/
def erode3 (img : List (List ℕ)) : List (List ℕ) :=
  let w := imgWidth img
  match List.replicate w 255 :: (img.map erodeRow ++ [List.replicate w 255]) with
  | a :: b :: rest => vwin3MinAux a b rest
  | _ => []

/-- Coordinates `(row, column)` of the non-zero (white) pixels of a mask. -/
def maskCoords (img : List (List ℕ)) : List (ℕ × ℕ) :=
  (img.enum.map fun ri =>
    ri.2.enum.filterMap fun cv =>
      if cv.2 ≠ 0 then some (ri.1, cv.1) else none).flatten

/-- 8-connectivity of two distinct pixel coordinates. -/
def adj8 (p q : ℕ × ℕ) : Bool :=
  natAbsDiff p.1 q.1 ≤ 1 && natAbsDiff p.2 q.2 ≤ 1 && ¬(p = q)

/-- Grow a connected component: repeatedly move every remaining pixel that is
8-adjacent to the component into it; `fuel` bounds the number of rounds. -/
def growComponent : ℕ → List (ℕ × ℕ) → List (ℕ × ℕ) → List (ℕ × ℕ) × List (ℕ × ℕ)
  | 0, comp, rem => (comp, rem)
  | fuel + 1, comp, rem =>
    let new := rem.filter fun q => comp.any fun p => adj8 p q
    if new.isEmpty then (comp, rem)
    else growComponent fuel (comp ++ new) (rem.filter fun q => ¬ new.contains q)

/-- Decompose the white pixels into 8-connected components (the regions whose
external contours `cv2.findContours(.., RETR_EXTERNAL, ..)` traces). -/
def componentsAux : ℕ → List (ℕ × ℕ) → List (List (ℕ × ℕ))
  | 0, _ => []
  | _ + 1, [] => []
  | fuel + 1, p :: rest =>
    let cr := growComponent (fuel + 1) [p] rest
    cr.1 :: componentsAux fuel cr.2

/-- Model of `cv2.boundingRect` of a component: `(x, y, w, h)` with `x`/`y`
the minimal column/row and `w`/`h` the extents. -/
def boundingRect (comp : List (ℕ × ℕ)) : ℕ × ℕ × ℕ × ℕ :=
  match comp with
  | [] => (0, 0, 0, 0)
  | (r, c) :: _ =>
    let minR := (comp.map Prod.fst).foldl min r
    let maxR := (comp.map Prod.fst).foldl max r
    let minC := (comp.map Prod.snd).foldl min c
    let maxC := (comp.map Prod.snd).foldl max c
    (minC, minR, maxC - minC + 1, maxR - minR + 1)

/-- Bounding boxes of all connected components of a binary mask. -/
def diffBoxes (mask : List (List ℕ)) : List (ℕ × ℕ × ℕ × ℕ) :=
  let coords := maskCoords mask
  (componentsAux coords.length coords).map boundingRect

/-- The diff pipeline of `detect_diff_boxes` (analyze_diffs.py lines 85-96):
absolute luminance difference, Gaussian blur, binary threshold at 25, two
dilation iterations, one erosion iteration, connected components and their
bounding boxes. -/
def diffPipelineBoxes (img1 img2 : List (List ℕ)) : List (ℕ × ℕ × ℕ × ℕ) :=
  let diff := absdiffImg img1 img2
  let diff_blur := gaussianBlur256 diff
  let thresh := thresholdBinary256 diff_blur
  let dilated := dilate3 (dilate3 thresh)
  let eroded := erode3 dilated
  diffBoxes eroded

/-- Area `w * h` of a candidate box, as computed at analyze_diffs.py line 103. -/
def boxArea (b : ℕ × ℕ × ℕ × ℕ) : ℕ := b.2.2.1 * b.2.2.2

/-- Model of Python `int(q * a * b)` for a non-negative rational `q` and
naturals `a`, `b`: the exact product is `q.num * a * b / q.den`, and `int()`
truncates toward zero, which integer division implements here. -/
def pyIntMul3 (q : ℚ) (a b : ℕ) : ℤ := q.num * a * b / (q.den : ℤ)

/-- Default `ssim_threshold` parameter of `detect_diff_boxes`
(analyze_diffs.py line 65): 0.98. -/
def DETECT_SSIM_THRESHOLD_DEFAULT : ℚ := mkRat 98 100

/-- Default `min_area_ratio` parameter of `detect_diff_boxes`
(analyze_diffs.py line 66): 0.001. -/
def MIN_AREA_RATIO_DEFAULT : ℚ := mkRat 1 1000

/-- Model of `detect_diff_boxes` (analyze_diffs.py lines 61-108) on a pair of
equal-shape grayscale images: the fast path returns `[]` when
`global_ssim >= ssim_threshold`; otherwise the diff pipeline runs and each
candidate box with `area < int(min_area_ratio * w1 * h1)` is discarded. -/
def detect_diff_boxes (img1 img2 : List (List ℕ))
    (global_ssim ssim_threshold min_area_ratio : ℚ) : List (ℕ × ℕ × ℕ × ℕ) :=
  let w1 := imgWidth img1
  let h1 := imgHeight img1
  if ssim_threshold ≤ global_ssim then []
  else
    let min_area := (pyIntMul3 min_area_ratio w1 h1).toNat
    (diffPipelineBoxes img1 img2).filter fun b => !(boxArea b < min_area)

/-! ## Concrete images used by the witnesses and counterexamples -/

/-- An all-black 4x4 image. -/
def img4Black : List (List ℕ) := List.replicate 4 (List.replicate 4 0)

/-- An all-white 4x4 image. -/
def img4White : List (List ℕ) := List.replicate 4 (List.replicate 4 255)

/-- An all-black image of width 63 and height 64 (area 4032, so the 0.1%
minimum-area floor is `int(4.032) = 4`). -/
def img63x64Black : List (List ℕ) := List.replicate 64 (List.replicate 63 0)

/-- The same 63x64 image with a single white pixel in the top-left corner. -/
def img63x64Dot : List (List ℕ) :=
  (255 :: List.replicate 62 0) :: List.replicate 63 (List.replicate 63 0)

/-! ## SnapshotPairProcessor (analyze_diffs.py, `analyze`; db.py)

The sqlite store is modelled as in-memory lists of rows.  Only the columns
the processor reads or writes are carried.  The external collaborators are
parameters: `fetch` models `load_image_from_drive` (download plus
`cv2.imread`, either a grayscale image or a raised error) and `score` models
`compute_global_ssim` (the skimage SSIM of the two images, a pure function
of them).  Python exceptions raised by a fetch are modelled by `Except`:
the per-pair handler at analyze_diffs.py lines 220-223 catches them,
leaving the database unchanged for that pair. -/

/-- The snapshot columns used by the pair processor (db.py `snapshots`). -/
structure Snapshot where
  id : ℕ
  screenshot_drive_id : String
deriving DecidableEq

/-- One row of the `snapshot_pairs` table (db.py lines 44-57). -/
structure PairRow where
  rowid : ℕ
  site_name : String
  url : String
  snapshot_id_1 : ℕ
  snapshot_id_2 : ℕ
  compared_at : String
  global_ssim : ℚ
  changed : Bool
deriving DecidableEq

/-- One row of the `snapshot_diffs` table (db.py lines 61-78). -/
structure DiffRow where
  snapshot_pair_id : ℤ
  tile_index : ℕ
  x : ℕ
  y : ℕ
  w : ℕ
  h : ℕ
  area : ℕ
  norm_x : ℚ
  norm_y : ℚ
  norm_w : ℚ
  norm_h : ℚ
deriving DecidableEq

/-- The mutable database state: the two tables the processor writes. -/
structure DB where
  pairs : List PairRow
  diffs : List DiffRow
deriving DecidableEq

/-- Model of `snapshot_pair_exists` (db.py lines 152-165). -/
def snapshot_pair_exists (db : DB) (sid1 sid2 : ℕ) : Bool :=
  db.pairs.any fun r => r.snapshot_id_1 = sid1 && r.snapshot_id_2 = sid2

/-- Model of `insert_snapshot_pair` (db.py lines 168-210): an
`INSERT OR IGNORE` against the UNIQUE (snapshot_id_1, snapshot_id_2) index
(a fresh autoincrement rowid on insertion, no change when the pair already
exists), followed by a SELECT of the row's id (`-1` if absent).
`newPairRow` is the row an insertion into `db` would append. -/
def newPairRow (db : DB) (site_name url : String) (sid1 sid2 : ℕ)
    (compared_at : String) (global_ssim : ℚ) (changed : Bool) : PairRow :=
  { rowid := db.pairs.length + 1, site_name := site_name, url := url,
    snapshot_id_1 := sid1, snapshot_id_2 := sid2,
    compared_at := compared_at, global_ssim := global_ssim, changed := changed }

def insert_snapshot_pair (db : DB) (site_name url : String) (sid1 sid2 : ℕ)
    (compared_at : String) (global_ssim : ℚ) (changed : Bool) : DB × ℤ :=
  let db' :=
    if snapshot_pair_exists db sid1 sid2 then db
    else
      { db with
        pairs := db.pairs ++
          [newPairRow db site_name url sid1 sid2 compared_at global_ssim changed] }
  match db'.pairs.find? (fun r => r.snapshot_id_1 = sid1 && r.snapshot_id_2 = sid2) with
  | some r => (db', (r.rowid : ℤ))
  | none => (db', -1)

/-- Model of `insert_snapshot_diff` (db.py lines 213-258): append one
bounding-box row; `area = w * h` and the normalized coordinates are the
exact rationals `x / img_width` and so on. -/
def insert_snapshot_diff (db : DB) (snapshot_pair_id : ℤ)
    (tile_index x y w h img_width img_height : ℕ) : DB :=
  { db with
    diffs := db.diffs ++
      [{ snapshot_pair_id := snapshot_pair_id, tile_index := tile_index,
         x := x, y := y, w := w, h := h, area := w * h,
         norm_x := mkRat x img_width, norm_y := mkRat y img_height,
         norm_w := mkRat w img_width, norm_h := mkRat h img_height }] }

/-- The global threshold of the pair processor, `SSIM_THRESHOLD = 0.985`
(analyze_diffs.py line 133). -/
def SSIM_THRESHOLD : ℚ := mkRat 985 1000

/-- The per-site pair budget, `MAX_PAIRS_PER_SITE = 5`
(analyze_diffs.py line 134). -/
def MAX_PAIRS_PER_SITE : ℕ := 5

/-- The changed decision of the pair processor (analyze_diffs.py line 183):
`changed = score < SSIM_THRESHOLD`. -/
def changedDecision (score : ℚ) : Bool := score < SSIM_THRESHOLD

/-- The body of the per-pair `try` block (analyze_diffs.py lines 172-223):
fetch both images (a raised error is caught and leaves the database
untouched for this pair), compute the score, insert the pair row, and when
the pair is changed insert one diff row per detected box, calling
`detect_diff_boxes` with its default `ssim_threshold` and `min_area_ratio`. -/
def processPairBody (fetch : String → Except String (List (List ℕ)))
    (score : List (List ℕ) → List (List ℕ) → ℚ)
    (site_name url now_iso : String) (db : DB) (s1 s2 : Snapshot) : DB :=
  match fetch s1.screenshot_drive_id, fetch s2.screenshot_drive_id with
  | Except.ok img1, Except.ok img2 =>
    let sc := score img1 img2
    let changed := changedDecision sc
    let ins := insert_snapshot_pair db site_name url s1.id s2.id now_iso sc changed
    if changed then
      let boxes := detect_diff_boxes img1 img2 sc
        DETECT_SSIM_THRESHOLD_DEFAULT MIN_AREA_RATIO_DEFAULT
      boxes.foldl
        (fun d b =>
          insert_snapshot_diff d ins.2 0 b.1 b.2.1 b.2.2.1 b.2.2.2
            (imgWidth img1) (imgHeight img1))
        ins.1
    else ins.1
  | _, _ => db

/-- The per-site pair loop (analyze_diffs.py lines 155-223): stop once
`pairs_processed >= MAX_PAIRS_PER_SITE`; skip a pair whose row already
exists without incrementing the counter; otherwise increment
`pairs_processed` (line 170, before the `try` block, so a failed fetch
still counts) and run the pair body. -/
def processPairsLoop (fetch : String → Except String (List (List ℕ)))
    (score : List (List ℕ) → List (List ℕ) → ℚ)
    (site_name url now_iso : String) :
    List (Snapshot × Snapshot) → DB → ℕ → DB × ℕ
  | [], db, processed => (db, processed)
  | (s1, s2) :: rest, db, processed =>
    if MAX_PAIRS_PER_SITE ≤ processed then (db, processed)
    else if snapshot_pair_exists db s1.id s2.id then
      processPairsLoop fetch score site_name url now_iso rest db processed
    else
      processPairsLoop fetch score site_name url now_iso rest
        (processPairBody fetch score site_name url now_iso db s1 s2)
        (processed + 1)

/-- The adjacent snapshot pairs in the order the loop visits them: the
source iterates `idx` over `reversed(range(len(snapshots) - 1))` taking
`(snapshots[idx], snapshots[idx + 1])` (lines 150-161), i.e. the reversed
zip of the list with its tail. -/
def adjacentPairs (snaps : List Snapshot) : List (Snapshot × Snapshot) :=
  (snaps.zip (snaps.drop 1)).reverse

/-- One site's processing (analyze_diffs.py lines 139-241): the
insufficient-snapshots guard, the pair loop, and the status recorded for
the summary.  Fetch errors are caught inside the per-pair handler, so in
the model no exception reaches the site level and the status is one of the
non-error strings of lines 236-240. -/
def processSite (fetch : String → Except String (List (List ℕ)))
    (score : List (List ℕ) → List (List ℕ) → ℚ)
    (site_name url now_iso : String) (snaps : List Snapshot) (db : DB) :
    DB × ℕ × String :=
  if snaps.length < 2 then (db, 0, "skipped (insufficient snapshots)")
  else
    let r := processPairsLoop fetch score site_name url now_iso
      (adjacentPairs snaps) db 0
    if r.2 = 0 then (r.1, 0, "completed (no new pairs)")
    else (r.1, r.2, "completed")

/-! ## DomFeatureExtractor (weekly_report.py, `extract_dom_features_from_html`)

The BeautifulSoup document is modelled as a tree of element and text nodes
(`HNode`/`HForest` are mutually inductive so that recursions over the tree
are structural).  An element carries its tag name, its `class` attribute as
a list of tokens, its `id` attribute and its `href` attribute, both already
defaulted to the empty string when absent (the source reads them with
`el.get(..) or ""`).  The extractor receives the `body` element (the source
takes `soup.body or soup` at line 68). -/

mutual
inductive HNode where
  | elem (tag : String) (classes : List String) (idAttr : String) (href : String)
      (children : HForest) : HNode
  | text (s : String) : HNode
inductive HForest where
  | nil : HForest
  | cons (n : HNode) (rest : HForest) : HForest
end

/-- Tag of a node; text nodes get the empty pseudo-tag. -/
def HNode.tagOf : HNode → String
  | .elem t _ _ _ _ => t
  | .text _ => ""

/-- Class attribute tokens of a node (`el.get("class", [])`). -/
def HNode.classesOf : HNode → List String
  | .elem _ c _ _ _ => c
  | .text _ => []

/-- Id attribute of a node (`el.get("id") or ""`). -/
def HNode.idAttrOf : HNode → String
  | .elem _ _ i _ _ => i
  | .text _ => ""

/-- Href attribute of a node (`btn.get("href") or ""`). -/
def HNode.hrefOf : HNode → String
  | .elem _ _ _ h _ => h
  | .text _ => ""

mutual
/-- Text fragments of a node's subtree in document order. -/
def nodeTextParts : HNode → List String
  | .text s => [s]
  | .elem _ _ _ _ ch => forestTextParts ch
/-- Text fragments of a forest in document order. -/
def forestTextParts : HForest → List String
  | .nil => []
  | .cons n rest => nodeTextParts n ++ forestTextParts rest
end

/-- Model of `normalize_space(el.get_text(separator=" ", strip=True))`:
`get_text` joins the stripped non-empty text fragments with one space, and
`normalize_space` collapses the remaining whitespace runs. -/
def getTextNorm (n : HNode) : String :=
  normalize_space
    (String.intercalate " " (((nodeTextParts n).map pyStrip).filter fun s => s ≠ ""))

mutual
/-- Descendant elements of a node in document (pre)order, excluding the
node itself, as `find_all(.., recursive=True)` enumerates them. -/
def nodeDescendants : HNode → List HNode
  | .text _ => []
  | .elem _ _ _ _ ch => forestElems ch
/-- Elements of a forest in document order: each element followed by its
descendants, then its later siblings. -/
def forestElems : HForest → List HNode
  | .nil => []
  | .cons n rest =>
    match n with
    | .text _ => forestElems rest
    | .elem .. => n :: (nodeDescendants n ++ forestElems rest)
end

/-- Model of `el.find_all(tags)`: descendant elements with a matching tag. -/
def findAll (tags : List String) (n : HNode) : List HNode :=
  (nodeDescendants n).filter fun m => tags.contains m.tagOf

/-- Model of `el.find(tags)`: the first matching descendant, if any. -/
def findFirst (tags : List String) (n : HNode) : Option HNode :=
  (findAll tags n).head?

mutual
/-- Model of decomposing `script`/`style`/`noscript` subtrees
(weekly_report.py lines 70-71) inside a node. -/
def pruneNode : HNode → HNode
  | .text s => .text s
  | .elem t c i h ch => .elem t c i h (pruneForest ch)
/-- Decompose `script`/`style`/`noscript` subtrees inside a forest. -/
def pruneForest : HForest → HForest
  | .nil => .nil
  | .cons n rest =>
    if ["script", "style", "noscript"].contains n.tagOf then pruneForest rest
    else .cons (pruneNode n) (pruneForest rest)
end

/-- Substring test, modelling Python's `needle in hay`. -/
def containsSub (needle hay : String) : Bool :=
  (List.range (hay.data.length + 1)).any fun i => needle.data.isPrefixOf (hay.data.drop i)

/-- The curated call-to-action phrases (weekly_report.py lines 32-47). -/
def CTA_KEYWORDS : List String :=
  ["get started", "start free", "start trial", "try for free", "try it free",
   "sign up", "sign in", "book a demo", "request demo", "talk to sales",
   "contact sales", "join now", "start now", "learn more"]

/-- One candidate hero block (weekly_report.py lines 128-138). -/
structure Candidate where
  idx : ℕ
  el : HNode
  text : String
  hero_score : ℕ
  heading_text : String
  cta_text : String
  cta_href : String

/-- Evaluation of one enumerated element as a hero candidate
(weekly_report.py lines 80-138): skip blocks whose normalized text is
shorter than 30 characters; otherwise compute the heading (first `h1`-`h3`,
falling back to the first `p` of length 15-160), the first call-to-action
element, and the additive hero score.  The position score
`max(0, 5 - idx // 3)` is Nat subtraction, which saturates at 0. -/
def candidateOf (idx : ℕ) (el : HNode) : Option Candidate :=
  let text := getTextNorm el
  if text.length < 30 then none
  else
    let classes := pyLower (String.intercalate " " el.classesOf)
    let el_id := pyLower el.idAttrOf
    let has_hero_class :=
      ["hero", "banner", "jumbotron"].any fun kw =>
        containsSub kw classes || containsSub kw el_id
    let has_media := !(findAll ["img", "picture", "video"] el).isEmpty
    let heading0 :=
      match findFirst ["h1", "h2", "h3"] el with
      | some h => getTextNorm h
      | none => ""
    let heading_text :=
      if heading0 = "" then
        match findFirst ["p"] el with
        | some p =>
          let pt := getTextNorm p
          if 15 ≤ pt.length ∧ pt.length ≤ 160 then pt else ""
        | none => ""
      else heading0
    let cta :=
      (findAll ["a", "button"] el).find? fun btn =>
        CTA_KEYWORDS.any fun kw => containsSub kw (pyLower (getTextNorm btn))
    let cta_text := match cta with | some btn => getTextNorm btn | none => ""
    let cta_href := match cta with | some btn => btn.hrefOf | none => ""
    let pos_score := 5 - idx / 3
    let heading_score := if heading_text ≠ "" then 2 else 0
    let cta_score := if cta.isSome then 3 else 0
    let hero_class_score := if has_hero_class then 1 else 0
    let visual_score := if has_media then 1 else 0
    some { idx := idx, el := el, text := text,
           hero_score := pos_score + heading_score + cta_score +
             hero_class_score + visual_score,
           heading_text := heading_text, cta_text := cta_text,
           cta_href := cta_href }

/-- The candidate list of a body (weekly_report.py lines 74-138): enumerate
the near-top block elements — the loop breaks once `idx > 80`, so exactly
the first 81 found elements are examined — and keep those long enough to be
candidates. -/
def extractCandidates (body : HNode) : List Candidate :=
  (((findAll ["section", "header", "main", "div", "article"] body).take 81).enum).filterMap
    fun ie => candidateOf ie.1 ie.2

/-- Model of `max(candidates, key=lambda c: c["hero_score"])`: the first
candidate attaining the maximal score (Python's `max` keeps the first). -/
def bestCandidate : List Candidate → Option Candidate
  | [] => none
  | c :: rest =>
    some (rest.foldl (fun b x => if b.hero_score < x.hero_score then x else b) c)

/-- The feature record returned by the extractor: all fields are strings
(or a string list), never absent. -/
structure DomExtract where
  hero_heading : String
  hero_subheading : String
  hero_cta_text : String
  hero_cta_href : String
  main_sections : List String
deriving DecidableEq

/-- Collection of the `h2`/`h3` section headings (weekly_report.py lines
162-169): de-duplicated non-empty texts in document order, stopping at 8. -/
def collectSections : List HNode → List String → List String
  | [], acc => acc
  | h :: rest, acc =>
    if 8 ≤ acc.length then acc
    else
      let txt := getTextNorm h
      collectSections rest (if txt ≠ "" ∧ ¬ acc.contains txt then acc ++ [txt] else acc)

/-- The hero heading derived from the best candidate (weekly_report.py line
147): `best["heading_text"] or best["text"][:200]`. -/
def heroHeadingOf (best : Candidate) : String :=
  if best.heading_text ≠ "" then best.heading_text else best.text.take 200

/-- The hero sub-heading derived from the best candidate (weekly_report.py
lines 155-160): the text of the first `p` inside the hero block when it
differs from the hero heading, else the empty string. -/
def heroSubheadingOf (best : Candidate) : String :=
  match findFirst ["p"] best.el with
  | some p =>
    let sub := getTextNorm p
    if sub ≠ heroHeadingOf best then sub else ""
  | none => ""

/-- Model of `extract_dom_features_from_html` (weekly_report.py lines
54-177) applied to the already parsed `body` element: prune the non-visible
subtrees, build the candidate list, pick the best candidate, and derive the
hero fields; with no candidates every hero field is the empty string. -/
def extract_dom_features (body0 : HNode) : DomExtract :=
  let body := pruneNode body0
  let cands := extractCandidates body
  let base : DomExtract :=
    match bestCandidate cands with
    | some best =>
      { hero_heading := heroHeadingOf best, hero_subheading := heroSubheadingOf best,
        hero_cta_text := best.cta_text, hero_cta_href := best.cta_href,
        main_sections := [] }
    | none =>
      { hero_heading := "", hero_subheading := "", hero_cta_text := "",
        hero_cta_href := "", main_sections := [] }
  { base with main_sections := collectSections (findAll ["h2", "h3"] body) [] }

/-- Conversion of a list of nodes to a forest, for building concrete trees. -/
def forestOf : List HNode → HForest
  | [] => .nil
  | n :: rest => .cons n (forestOf rest)

/-- An element with no class, id or href attributes. -/
def mkElem (tag : String) (children : List HNode) : HNode :=
  .elem tag [] "" "" (forestOf children)

/-! ## VariantClusterer (weekly_report.py, `build_site_variants`) -/

/-- The cached DOM features of one snapshot, as read back from the
`snapshot_dom_features` table; `main_sections` stands for the decoded
`main_sections_json` column and the string fields are already defaulted to
`""` (the source reads them with `feats.get(..) or ""`). -/
structure DomFeats where
  variant_key : Option String
  hero_heading : String
  hero_cta_text : String
  main_sections : List String
deriving DecidableEq

/-- One snapshot row joined with its DOM features, as `build_site_variants`
consumes it. -/
structure SnapRec where
  id : ℕ
  captured_at : String
  screenshot_drive_id : String
  dom_features : DomFeats
deriving DecidableEq

/-- One variant bucket (weekly_report.py lines 288-297). -/
structure Variant where
  hero_heading : String
  hero_cta_text : String
  count : ℕ
  first_ts : String
  last_ts : String
  example_screenshot_id : String
  main_sections : List String
deriving DecidableEq

/-- The bucket key of a snapshot (weekly_report.py lines 279-282): a falsy
variant key — absent or empty — falls into the shared
`"__no_variant_key__"` bucket. -/
def variantKeyOf (s : SnapRec) : String :=
  match s.dom_features.variant_key with
  | none => "__no_variant_key__"
  | some k => if k = "" then "__no_variant_key__" else k

/-- A fresh bucket for a snapshot's key (weekly_report.py lines 288-297):
count 0 and the snapshot's own fields; the per-member update runs next. -/
def initVariant (s : SnapRec) : Variant :=
  { hero_heading := s.dom_features.hero_heading,
    hero_cta_text := s.dom_features.hero_cta_text,
    count := 0, first_ts := s.captured_at, last_ts := s.captured_at,
    example_screenshot_id := s.screenshot_drive_id,
    main_sections := s.dom_features.main_sections }

/-- The per-member bucket update (weekly_report.py lines 299-310): bump the
count, widen the first/last timestamps — a strictly later timestamp also
replaces the example screenshot — and fill an empty heading or CTA with the
member's non-empty value. -/
def updateVariant (v : Variant) (s : SnapRec) : Variant :=
  let ts := s.captured_at
  let v1 := { v with count := v.count + 1 }
  let v2 := if pyStrLt ts v1.first_ts then { v1 with first_ts := ts } else v1
  let v3 :=
    if pyStrLt v2.last_ts ts then
      { v2 with last_ts := ts, example_screenshot_id := s.screenshot_drive_id }
    else v2
  let v4 :=
    if s.dom_features.hero_heading ≠ "" ∧ v3.hero_heading = "" then
      { v3 with hero_heading := s.dom_features.hero_heading }
    else v3
  if s.dom_features.hero_cta_text ≠ "" ∧ v4.hero_cta_text = "" then
    { v4 with hero_cta_text := s.dom_features.hero_cta_text }
  else v4

/-- Route one snapshot into the bucket list: update the first bucket with
its key, or append a fresh bucket at the end (a Python dict preserves
insertion order, which the association list models). -/
def bucketsInsert : List (String × Variant) → String → SnapRec → List (String × Variant)
  | [], k, s => [(k, updateVariant (initVariant s) s)]
  | (k', v) :: rest, k, s =>
    if k' = k then (k', updateVariant v s) :: rest
    else (k', v) :: bucketsInsert rest k s

/-- Model of `build_site_variants` (weekly_report.py lines 261-312). -/
def build_site_variants (snaps : List SnapRec) : List (String × Variant) :=
  snaps.foldl (fun vs s => bucketsInsert vs (variantKeyOf s) s) []

/-- Sum of the member counts over all buckets. -/
def totalVariantCount (vs : List (String × Variant)) : ℕ :=
  (vs.map fun kv => kv.2.count).sum

/-- First non-empty string of a list, or `""` when every entry is empty. -/
def firstNonemptyStr (l : List String) : String :=
  (l.find? fun s => s ≠ "").getD ""

/-- Model of `compute_variant_key` (weekly_report.py lines 180-201).
`hh`/`hc` are `(x or "").strip().lower()`; if either is non-empty the key is
the SHA-256 hex digest of `f"{hh}|{hc}"` encoded as UTF-8, else the fallback
branch decides. -/
def compute_variant_key (hero_heading hero_cta_text : String)
    (fallback : Option String) : Option String :=
  let hh := pyLower (pyStrip hero_heading)
  let hc := pyLower (pyStrip hero_cta_text)
  if hh ≠ "" ∨ hc ≠ "" then
    some (sha256Hex (utf8Bytes (hh ++ "|" ++ hc)))
  else
    fallbackKey fallback

/-! ## Bucket lookup helpers -/

/-- The bucket stored under a key, if any (first match, as in a dict). -/
def lookupBucket (vs : List (String × Variant)) (k : String) : Option Variant :=
  (vs.find? fun kv => kv.1 = k).map fun kv => kv.2

/-- One member's effect on an optional bucket: a fresh bucket is initialised
then updated, an existing one is updated. -/
def bucketStep (ov : Option Variant) (s : SnapRec) : Option Variant :=
  some (updateVariant (match ov with | some v => v | none => initVariant s) s)

/-! ## Concrete scenario data for the witnesses and counterexamples -/

/-- The empty database. -/
def emptyDB : DB := { pairs := [], diffs := [] }

/-- A snapshot whose image reference alternates between a black and a white
test image by parity of its id. -/
def snapBW (n : ℕ) : Snapshot :=
  { id := n, screenshot_drive_id := if n % 2 = 0 then "black" else "white" }

/-- An image store holding the two 4x4 test images; any other reference
raises (models a failed download / unreadable image). -/
def fetchBW : String → Except String (List (List ℕ)) :=
  fun ref =>
    if ref = "black" then Except.ok img4Black
    else if ref = "white" then Except.ok img4White
    else Except.error "Failed to load image"

/-- A similarity scorer that always reports 0.5 (well below both
thresholds, so every compared pair is changed with one full-image box). -/
def scoreHalf : List (List ℕ) → List (List ℕ) → ℚ := fun _ _ => mkRat 1 2

/-- A similarity scorer that always reports 0.99 (above both thresholds,
so every compared pair is unchanged). -/
def scoreHigh : List (List ℕ) → List (List ℕ) → ℚ := fun _ _ => mkRat 99 100

/-- Three snapshots: two adjacent pairs, well inside the per-run budget. -/
def snaps3 : List Snapshot := [snapBW 1, snapBW 2, snapBW 3]

/-- Seven snapshots: six adjacent pairs, one more than the per-run budget. -/
def snaps7 : List Snapshot :=
  [snapBW 1, snapBW 2, snapBW 3, snapBW 4, snapBW 5, snapBW 6, snapBW 7]

/-- Six snapshots (five adjacent pairs) whose newest image is unreadable:
only the newest pair is affected by the injected fetch error. -/
def snapsSixBad : List Snapshot :=
  [snapBW 1, snapBW 2, snapBW 3, snapBW 4, snapBW 5,
   { id := 6, screenshot_drive_id := "missing" }]

/-- Seven snapshots (six adjacent pairs) whose newest image is unreadable. -/
def snapsSevenBad : List Snapshot :=
  [snapBW 1, snapBW 2, snapBW 3, snapBW 4, snapBW 5, snapBW 6,
   { id := 7, screenshot_drive_id := "missing" }]

/-- A body with one long candidate block containing no heading, no
paragraph and no call-to-action element. -/
def c8Body : HNode :=
  mkElem "body"
    [mkElem "div"
      [.text "This is a plain block of text with no headings and no call to action at all."]]

/-- A body with no candidate block at all (the only block's text is too
short). -/
def emptyBody : HNode := mkElem "body" [mkElem "div" [.text "tiny"]]

/-- A hero block whose first paragraph repeats the heading and whose second
paragraph differs from it. -/
def c9Section : HNode :=
  mkElem "section"
    [mkElem "h1" [.text "Hello world headline"],
     mkElem "p" [.text "Hello world headline"],
     mkElem "p" [.text "A second different paragraph"]]

/-- A body whose only candidate block is `c9Section`. -/
def c9Body : HNode := mkElem "body" [c9Section]

/-- The candidate record that `c8Body`'s block evaluates to. -/
def c8Cand : Candidate :=
  { idx := 0,
    el := mkElem "div"
      [.text "This is a plain block of text with no headings and no call to action at all."],
    text := "This is a plain block of text with no headings and no call to action at all.",
    hero_score := 5, heading_text := "", cta_text := "", cta_href := "" }

/-- A snapshot record with variant key "k1", an empty heading and a
non-empty CTA. -/
def snapRecA : SnapRec :=
  { id := 1, captured_at := "2026-01-01T00:00:00+00:00",
    screenshot_drive_id := "shot1",
    dom_features := { variant_key := some "k1", hero_heading := "",
                      hero_cta_text := "Sign up", main_sections := [] } }

/-- A later snapshot record with variant key "k1" and a non-empty heading. -/
def snapRecB : SnapRec :=
  { id := 2, captured_at := "2026-01-03T00:00:00+00:00",
    screenshot_drive_id := "shot2",
    dom_features := { variant_key := some "k1", hero_heading := "Welcome",
                      hero_cta_text := "", main_sections := [] } }

/-- A snapshot record with no variant key. -/
def snapRecC : SnapRec :=
  { id := 3, captured_at := "2026-01-02T00:00:00+00:00",
    screenshot_drive_id := "shot3",
    dom_features := { variant_key := none, hero_heading := "Other",
                      hero_cta_text := "", main_sections := [] } }

/-- Three snapshot records: two sharing one variant key and one keyless. -/
def snapRecsC7 : List SnapRec := [snapRecA, snapRecB, snapRecC]

/-- The bucket the clusterer builds for key "k1" from `snapRecsC7`. -/
def c7Bucket : Variant :=
  { hero_heading := "Welcome", hero_cta_text := "Sign up", count := 2,
    first_ts := "2026-01-01T00:00:00+00:00",
    last_ts := "2026-01-03T00:00:00+00:00",
    example_screenshot_id := "shot2", main_sections := [] }

/-! # Theorems

First the auxiliary lemmas, then one theorem per claim (with its witness or
counterexample where required). -/

/-! ## Character and string lemmas -/

/-- Equality of characters is equality of their code points. -/
theorem char_eq_iff_toNat (c d : Char) : c = d ↔ c.toNat = d.toNat := by
  constructor
  · intro h; rw [h]
  · intro h; rw [← Char.ofNat_toNat c, h, Char.ofNat_toNat]

/-- Code point of `Char.ofNat` below the surrogate range. -/
theorem toNat_ofNat_char (n : ℕ) (h : n < 55296) : (Char.ofNat n).toNat = n := by
  simp [Char.ofNat, Char.toNat, Nat.isValidChar, h, Char.ofNatAux, UInt32.toNat,
    BitVec.toNat_ofNatLt]

/-- The whitespace predicate in terms of code points. -/
theorem isPySpace_iff (c : Char) :
    isPySpace c = true ↔
      (c.toNat = 32 ∨ c.toNat = 9 ∨ c.toNat = 10 ∨ c.toNat = 13 ∨
       c.toNat = 11 ∨ c.toNat = 12) := by
  simp only [isPySpace, Bool.or_eq_true, decide_eq_true_eq, char_eq_iff_toNat,
    show (' ').toNat = 32 from rfl, show ('\t').toNat = 9 from rfl,
    show ('\n').toNat = 10 from rfl, show ('\r').toNat = 13 from rfl,
    show ('\x0b').toNat = 11 from rfl, show ('\x0c').toNat = 12 from rfl]
  tauto

/-- Lower-casing never creates or destroys whitespace. -/
theorem isPySpace_toLower (c : Char) : isPySpace c.toLower = isPySpace c := by
  unfold Char.toLower
  by_cases h : c.toNat ≥ 65 ∧ c.toNat ≤ 90
  · rw [if_pos h]
    have hv : (Char.ofNat (c.toNat + 32)).toNat = c.toNat + 32 :=
      toNat_ofNat_char _ (by omega)
    have h1 : isPySpace (Char.ofNat (c.toNat + 32)) = false := by
      rw [← Bool.not_eq_true, isPySpace_iff, hv]; omega
    have h2 : isPySpace c = false := by
      rw [← Bool.not_eq_true, isPySpace_iff]; omega
    rw [h1, h2]
  · rw [if_neg h]

/-- The head of a `dropWhile` result falsifies the predicate. -/
theorem dropWhile_head_false {α : Type} (p : α → Bool) (l : List α) (c : α)
    (rest : List α) (h : l.dropWhile p = c :: rest) : p c = false := by
  induction l with
  | nil => simp at h
  | cons a t ih =>
    rw [List.dropWhile_cons] at h
    split at h
    · exact ih h
    · cases h
      next h' => simpa using h'

/-- Stripping commutes with character-wise lower-casing. -/
theorem stripChars_map_toLower (l : List Char) :
    stripChars (l.map Char.toLower) = (stripChars l).map Char.toLower := by
  have hcomp : (fun c => isPySpace (Char.toLower c)) = isPySpace := by
    funext c; exact isPySpace_toLower c
  unfold stripChars
  rw [List.dropWhile_map, ← List.map_reverse, List.dropWhile_map, ← List.map_reverse]
  simp only [Function.comp_def, hcomp]

/-- Stripping a string after lower-casing equals lower-casing after
stripping. -/
theorem pyStrip_pyLower_comm (s : String) : pyStrip (pyLower s) = pyLower (pyStrip s) := by
  unfold pyStrip pyLower
  exact String.ext (by simpa using stripChars_map_toLower s.data)

/-- Stripping is idempotent at the character-list level. -/
theorem stripChars_idem (l : List Char) : stripChars (stripChars l) = stripChars l := by
  unfold stripChars
  set d := l.dropWhile isPySpace with hd
  set m := d.reverse.dropWhile isPySpace with hm
  have hsplit : d = m.reverse ++ (d.reverse.takeWhile isPySpace).reverse := by
    have h1 : d.reverse.takeWhile isPySpace ++ m = d.reverse := by
      rw [hm]; exact List.takeWhile_append_dropWhile _ _
    calc d = d.reverse.reverse := (List.reverse_reverse d).symm
    _ = (d.reverse.takeWhile isPySpace ++ m).reverse := by rw [h1]
    _ = m.reverse ++ (d.reverse.takeWhile isPySpace).reverse := by
        rw [List.reverse_append]
  have hA : m.reverse.dropWhile isPySpace = m.reverse := by
    cases hrev : m.reverse with
    | nil => simp
    | cons c rest =>
      have hc : isPySpace c = false := by
        apply dropWhile_head_false isPySpace l c
          (rest ++ (d.reverse.takeWhile isPySpace).reverse)
        conv_lhs => rw [← hd, hsplit, hrev]
        simp
      rw [List.dropWhile_cons, hc]
      simp
  have hB : m.dropWhile isPySpace = m := by
    rw [hm]; exact List.dropWhile_idempotent _ _
  rw [hA, List.reverse_reverse, hB]

/-- Stripping is idempotent. -/
theorem pyStrip_idem (s : String) : pyStrip (pyStrip s) = pyStrip s := by
  unfold pyStrip
  exact String.ext (by simpa using stripChars_idem s.data)

/-- A string of whitespace strips to the empty string. -/
theorem pyStrip_all_space (s : String) (h : ∀ c ∈ s.data, isPySpace c) :
    pyStrip s = "" := by
  unfold pyStrip stripChars
  have h1 : s.data.dropWhile isPySpace = [] := List.dropWhile_eq_nil_iff.mpr h
  apply String.ext
  simp [h1]

/-- Lower-casing preserves emptiness. -/
theorem pyLower_eq_empty_iff (s : String) : pyLower s = "" ↔ s = "" := by
  unfold pyLower
  constructor
  · intro h
    have : s.data.map Char.toLower = [] := by
      have := congrArg String.data h
      simpa using this
    exact String.ext (by simpa using List.map_eq_nil_iff.mp this)
  · intro h; rw [h]; rfl

/-! ## C5: variant keys are deterministic, case-insensitive and
separator-sensitive -/

/-- C5: the variant key computation is deterministic, case-insensitive and
separator-sensitive: lower-case-equal headings and CTAs give identical keys
(in particular for "Get Started"/"Buy" versus "get started"/"buy"), moving
the space across the heading/CTA boundary ("getstarted"/"buy") changes the
key, and the computation is a pure function of its inputs. -/
theorem c5_variant_key_properties :
    (∀ h1 h2 c1 c2 : String, ∀ f : Option String,
        pyLower h1 = pyLower h2 → pyLower c1 = pyLower c2 →
        compute_variant_key h1 c1 f = compute_variant_key h2 c2 f)
    ∧ (∀ f : Option String,
        compute_variant_key "Get Started" "Buy" f =
          compute_variant_key "get started" "buy" f)
    ∧ (∀ f : Option String,
        compute_variant_key "getstarted" "buy" f ≠
          compute_variant_key "get started" "buy" f)
    ∧ (∀ (h c : String) (f : Option String),
        compute_variant_key h c f = compute_variant_key h c f) := by
  refine ⟨?_, ?_, ?_, ?_⟩
  · intro h1 h2 c1 c2 f e1 e2
    have eh : pyLower (pyStrip h1) = pyLower (pyStrip h2) := by
      rw [← pyStrip_pyLower_comm, e1, pyStrip_pyLower_comm]
    have ec : pyLower (pyStrip c1) = pyLower (pyStrip c2) := by
      rw [← pyStrip_pyLower_comm, e2, pyStrip_pyLower_comm]
    simp only [compute_variant_key, eh, ec]
  · intro f; rfl
  · intro f
    have e1 : compute_variant_key "getstarted" "buy" f =
        some (sha256Hex (utf8Bytes "getstarted|buy")) := rfl
    have e2 : compute_variant_key "get started" "buy" f =
        some (sha256Hex (utf8Bytes "get started|buy")) := rfl
    rw [e1, e2]
    decide
  · intro h c f; rfl

/-- Witness for C5: the case-insensitivity conjunct applied to a concrete
pair of inputs differing only in letter case. -/
theorem c5_witness :
    compute_variant_key "HELLO World" "Sign UP" (some "dom") =
      compute_variant_key "hello world" "sign up" (some "dom") :=
  c5_variant_key_properties.1 "HELLO World" "hello world" "Sign UP" "sign up"
    (some "dom") (by decide) (by decide)

/-! ## C10: variant keys are insensitive to surrounding whitespace -/

/-- C10: the variant key is insensitive to leading and trailing whitespace
of the heading and the CTA — the key of any inputs equals the key of their
stripped forms — and whitespace-only heading and CTA are treated as empty,
falling through to the fallback branch (the fallback hash when the fallback
is a non-empty string, no key otherwise). -/
theorem c10_variant_key_whitespace :
    (∀ (h c : String) (f : Option String),
        compute_variant_key h c f = compute_variant_key (pyStrip h) (pyStrip c) f)
    ∧ (∀ (h c : String) (f : Option String),
        (∀ ch ∈ h.data, isPySpace ch) → (∀ ch ∈ c.data, isPySpace ch) →
        compute_variant_key h c f = fallbackKey f) := by
  constructor
  · intro h c f
    simp only [compute_variant_key, pyStrip_idem]
  · intro h c f hh hc
    have e1 : pyStrip h = "" := pyStrip_all_space h hh
    have e2 : pyStrip c = "" := pyStrip_all_space c hc
    simp only [compute_variant_key, e1, e2]
    rfl

/-- Witness for C10: both conjuncts applied to concrete padded and
whitespace-only inputs. -/
theorem c10_witness :
    compute_variant_key "  Get Started " " Buy\t" (some "D1g3st") =
      compute_variant_key (pyStrip "  Get Started ") (pyStrip " Buy\t") (some "D1g3st")
    ∧ compute_variant_key " \t " "\x0c" (some "D1g3st") = fallbackKey (some "D1g3st") :=
  ⟨c10_variant_key_whitespace.1 "  Get Started " " Buy\t" (some "D1g3st"),
   c10_variant_key_whitespace.2 " \t " "\x0c" (some "D1g3st") (by decide) (by decide)⟩

/-! ## SHA-256 sanity checks -/

/-- Sanity check of the SHA-256 implementation against the standard test
vector for the empty message. -/
theorem sha256Hex_empty :
    sha256Hex [] = "e3b0c44298fc1c149afbf4c8996fb92427ae41e4649b934ca495991b7852b855" := by
  decide

/-- Sanity check of the SHA-256 implementation against the standard test
vector for the three-byte message "abc". -/
theorem sha256Hex_abc :
    sha256Hex (utf8Bytes "abc") =
      "ba7816bf8f01cfea414140de5dae2223b00361a396177a9cb410ff61f20015ad" := by
  decide

/-! ## C1: the two thresholds of the diff pipeline -/

/-- Counterexample for C1: a pair with similarity 0.982 is below the global
threshold 0.985, hence marked changed, yet `detect_diff_boxes` returns no
boxes without running the diff pipeline — its own default threshold is 0.98,
not 0.985 — although the pipeline run on the same images would produce a
candidate box.  This refutes "when the score is below that threshold
[0.985], region extraction runs the diff pipeline to produce candidate
boxes". -/
theorem c1_counterexample :
    (mkRat 982 1000 < SSIM_THRESHOLD ∧ changedDecision (mkRat 982 1000) = true)
    ∧ detect_diff_boxes img4Black img4White (mkRat 982 1000)
        DETECT_SSIM_THRESHOLD_DEFAULT MIN_AREA_RATIO_DEFAULT = []
    ∧ diffPipelineBoxes img4Black img4White = [(0, 0, 4, 4)] := by
  refine ⟨⟨by decide, by decide⟩, by decide, by decide⟩

/-- C1 (amended): the pair processor marks a pair changed exactly when its
score is strictly below the global threshold 0.985; region extraction is
governed by its own default threshold 0.98: it returns the empty list
whenever the score is at or above 0.98 — in particular at or above 0.985 —
and it runs the diff pipeline (filtered by the minimum-area floor) exactly
when the score is below 0.98. -/
theorem c1_thresholds :
    SSIM_THRESHOLD = 985 / 1000
    ∧ DETECT_SSIM_THRESHOLD_DEFAULT = 98 / 100
    ∧ (∀ sc : ℚ, changedDecision sc = true ↔ sc < SSIM_THRESHOLD)
    ∧ (∀ (img1 img2 : List (List ℕ)) (sc : ℚ), SSIM_THRESHOLD ≤ sc →
        detect_diff_boxes img1 img2 sc DETECT_SSIM_THRESHOLD_DEFAULT
          MIN_AREA_RATIO_DEFAULT = [])
    ∧ (∀ (img1 img2 : List (List ℕ)) (sc : ℚ), DETECT_SSIM_THRESHOLD_DEFAULT ≤ sc →
        detect_diff_boxes img1 img2 sc DETECT_SSIM_THRESHOLD_DEFAULT
          MIN_AREA_RATIO_DEFAULT = [])
    ∧ (∀ (img1 img2 : List (List ℕ)) (sc : ℚ), sc < DETECT_SSIM_THRESHOLD_DEFAULT →
        detect_diff_boxes img1 img2 sc DETECT_SSIM_THRESHOLD_DEFAULT
          MIN_AREA_RATIO_DEFAULT =
        (diffPipelineBoxes img1 img2).filter fun b =>
          !(boxArea b <
            (pyIntMul3 MIN_AREA_RATIO_DEFAULT (imgWidth img1) (imgHeight img1)).toNat)) := by
  refine ⟨?_, ?_, ?_, ?_, ?_, ?_⟩
  · unfold SSIM_THRESHOLD
    rw [Rat.mkRat_eq_div]; norm_num
  · unfold DETECT_SSIM_THRESHOLD_DEFAULT
    rw [Rat.mkRat_eq_div]; norm_num
  · intro sc; simp [changedDecision]
  · intro img1 img2 sc h
    have hc : DETECT_SSIM_THRESHOLD_DEFAULT ≤ sc :=
      le_trans (by decide : DETECT_SSIM_THRESHOLD_DEFAULT ≤ SSIM_THRESHOLD) h
    simp only [detect_diff_boxes, if_pos hc]
  · intro img1 img2 sc h
    simp only [detect_diff_boxes, if_pos h]
  · intro img1 img2 sc h
    simp only [detect_diff_boxes, if_neg (not_le.mpr h)]

/-- Witness for C1: the changed decision at score 0.5, the fast path at
score 0.99, and the pipeline path at score 0.5 on concrete 4x4 images. -/
theorem c1_witness :
    changedDecision (mkRat 1 2) = true
    ∧ detect_diff_boxes img4Black img4White (mkRat 99 100)
        DETECT_SSIM_THRESHOLD_DEFAULT MIN_AREA_RATIO_DEFAULT = []
    ∧ detect_diff_boxes img4Black img4White (mkRat 1 2)
        DETECT_SSIM_THRESHOLD_DEFAULT MIN_AREA_RATIO_DEFAULT = [(0, 0, 4, 4)] :=
  ⟨(c1_thresholds.2.2.1 (mkRat 1 2)).mpr (by decide),
   c1_thresholds.2.2.2.2.1 img4Black img4White (mkRat 99 100) (by decide),
   (c1_thresholds.2.2.2.2.2 img4Black img4White (mkRat 1 2) (by decide)).trans
     (by decide)⟩

/-! ## C4: the minimum-area floor -/

/-- C4 (amended): every box returned by region extraction has area at least
`int(min_area_ratio * w1 * h1)` — the truncated integer floor of the ratio
times the image area — because each candidate with area strictly below that
integer is discarded.  (The claim's real-valued bound fails; see the
counterexample.) -/
theorem c4_min_area_floor (img1 img2 : List (List ℕ)) (sc thr ratio : ℚ)
    (b : ℕ × ℕ × ℕ × ℕ) (hb : b ∈ detect_diff_boxes img1 img2 sc thr ratio) :
    (pyIntMul3 ratio (imgWidth img1) (imgHeight img1)).toNat ≤ boxArea b := by
  simp only [detect_diff_boxes] at hb
  by_cases hc : thr ≤ sc
  · rw [if_pos hc] at hb
    simp at hb
  · rw [if_neg hc] at hb
    have h2 := (List.mem_filter.mp hb).2
    simp only [Bool.not_eq_true', decide_eq_false_iff_not, not_lt] at h2
    exact h2

/-- Witness for C4: the amended bound applied to the box returned for the
concrete 4x4 image pair. -/
theorem c4_witness :
    (pyIntMul3 MIN_AREA_RATIO_DEFAULT (imgWidth img4Black) (imgHeight img4Black)).toNat ≤
      boxArea (0, 0, 4, 4) :=
  c4_min_area_floor img4Black img4White (mkRat 1 2) DETECT_SSIM_THRESHOLD_DEFAULT
    MIN_AREA_RATIO_DEFAULT (0, 0, 4, 4) (by decide)

/-- Counterexample for C4: on a 63x64 image pair differing in one corner
pixel, `detect_diff_boxes` returns a box of area 4, which is strictly below
`min_area_ratio * width * height = 4.032` — the code compares against the
truncated `int(0.001 * 63 * 64) = 4`, so a box whose area is below the
ratio of the total image area but not below its integer floor survives. -/
theorem c4_counterexample :
    detect_diff_boxes img63x64Black img63x64Dot (mkRat 1 2)
      DETECT_SSIM_THRESHOLD_DEFAULT MIN_AREA_RATIO_DEFAULT = [(0, 0, 2, 2)]
    ∧ ((boxArea (0, 0, 2, 2) : ℚ) <
        MIN_AREA_RATIO_DEFAULT * (imgWidth img63x64Black : ℚ) *
          (imgHeight img63x64Black : ℚ)) := by
  constructor
  · decide
  · have h1 : imgWidth img63x64Black = 63 := rfl
    have h2 : imgHeight img63x64Black = 64 := rfl
    have h3 : boxArea (0, 0, 2, 2) = 4 := rfl
    rw [h1, h2, h3]
    unfold MIN_AREA_RATIO_DEFAULT
    rw [Rat.mkRat_eq_div]
    norm_num

/-! ## C2 and C3: lemmas about the pair processor -/

/-- Inserting a diff row leaves the pairs table unchanged. -/
theorem insert_snapshot_diff_pairs (db : DB) (pid : ℤ) (ti x y w h iw ihh : ℕ) :
    (insert_snapshot_diff db pid ti x y w h iw ihh).pairs = db.pairs := rfl

/-- Inserting any number of diff rows leaves the pairs table unchanged. -/
theorem foldl_insert_diff_pairs (boxes : List (ℕ × ℕ × ℕ × ℕ)) (pid : ℤ) (iw ihh : ℕ) :
    ∀ db : DB,
      (boxes.foldl
        (fun d b => insert_snapshot_diff d pid 0 b.1 b.2.1 b.2.2.1 b.2.2.2 iw ihh)
        db).pairs = db.pairs := by
  induction boxes with
  | nil => intro db; rfl
  | cons b rest ih =>
    intro db
    rw [List.foldl_cons, ih, insert_snapshot_diff_pairs]

/-- Pair existence only looks at the pairs table. -/
theorem snapshot_pair_exists_congr {db1 db2 : DB} (h : db1.pairs = db2.pairs)
    (a b : ℕ) : snapshot_pair_exists db1 a b = snapshot_pair_exists db2 a b := by
  unfold snapshot_pair_exists
  rw [h]

/-- The database component of `insert_snapshot_pair`: unchanged when the
pair exists, one appended row otherwise. -/
theorem insert_snapshot_pair_fst (db : DB) (site url : String) (sid1 sid2 : ℕ)
    (t : String) (sc : ℚ) (ch : Bool) :
    (insert_snapshot_pair db site url sid1 sid2 t sc ch).1 =
      if snapshot_pair_exists db sid1 sid2 then db
      else { db with pairs := db.pairs ++ [newPairRow db site url sid1 sid2 t sc ch] } := by
  unfold insert_snapshot_pair
  split <;> dsimp only <;> split <;> rfl

/-- After `insert_snapshot_pair`, a row for the pair exists. -/
theorem pairExists_insert_self (db : DB) (site url : String) (sid1 sid2 : ℕ)
    (t : String) (sc : ℚ) (ch : Bool) :
    snapshot_pair_exists (insert_snapshot_pair db site url sid1 sid2 t sc ch).1
      sid1 sid2 = true := by
  rw [insert_snapshot_pair_fst]
  by_cases h : snapshot_pair_exists db sid1 sid2 = true
  · rw [if_pos h]; exact h
  · rw [if_neg h]
    unfold snapshot_pair_exists newPairRow
    simp [List.any_append]

/-- `insert_snapshot_pair` never removes an existing pair row. -/
theorem pairExists_insert_mono {db : DB} {a b : ℕ} (site url : String)
    (sid1 sid2 : ℕ) (t : String) (sc : ℚ) (ch : Bool)
    (h : snapshot_pair_exists db a b = true) :
    snapshot_pair_exists (insert_snapshot_pair db site url sid1 sid2 t sc ch).1
      a b = true := by
  rw [insert_snapshot_pair_fst]
  by_cases hex : snapshot_pair_exists db sid1 sid2 = true
  · rw [if_pos hex]; exact h
  · rw [if_neg hex]
    unfold snapshot_pair_exists at h ⊢
    simp only [List.any_append, Bool.or_eq_true]
    exact Or.inl h

/-- The per-pair body never removes an existing pair row. -/
theorem processPairBody_mono (fetch : String → Except String (List (List ℕ)))
    (score : List (List ℕ) → List (List ℕ) → ℚ) (site url t : String)
    (db : DB) (s1 s2 : Snapshot) {a b : ℕ}
    (h : snapshot_pair_exists db a b = true) :
    snapshot_pair_exists (processPairBody fetch score site url t db s1 s2) a b = true := by
  cases hf1 : fetch s1.screenshot_drive_id with
  | error e => simp only [processPairBody, hf1]; exact h
  | ok img1 =>
    cases hf2 : fetch s2.screenshot_drive_id with
    | error e => simp only [processPairBody, hf1, hf2]; exact h
    | ok img2 =>
      simp only [processPairBody, hf1, hf2]
      split
      · rw [snapshot_pair_exists_congr (foldl_insert_diff_pairs _ _ _ _ _)]
        exact pairExists_insert_mono _ _ _ _ _ _ _ h
      · exact pairExists_insert_mono _ _ _ _ _ _ _ h

/-- After a successful per-pair body, a row for the pair exists. -/
theorem processPairBody_self (fetch : String → Except String (List (List ℕ)))
    (score : List (List ℕ) → List (List ℕ) → ℚ) (site url t : String)
    (db : DB) (s1 s2 : Snapshot)
    (h1 : ∃ i, fetch s1.screenshot_drive_id = Except.ok i)
    (h2 : ∃ i, fetch s2.screenshot_drive_id = Except.ok i) :
    snapshot_pair_exists (processPairBody fetch score site url t db s1 s2)
      s1.id s2.id = true := by
  obtain ⟨i1, hf1⟩ := h1
  obtain ⟨i2, hf2⟩ := h2
  simp only [processPairBody, hf1, hf2]
  split
  · rw [snapshot_pair_exists_congr (foldl_insert_diff_pairs _ _ _ _ _)]
    exact pairExists_insert_self _ _ _ _ _ _ _ _
  · exact pairExists_insert_self _ _ _ _ _ _ _ _

/-- The pair loop never removes an existing pair row. -/
theorem processPairsLoop_mono (fetch : String → Except String (List (List ℕ)))
    (score : List (List ℕ) → List (List ℕ) → ℚ) (site url t : String)
    (l : List (Snapshot × Snapshot)) {a b : ℕ} :
    ∀ (db : DB) (p : ℕ), snapshot_pair_exists db a b = true →
      snapshot_pair_exists (processPairsLoop fetch score site url t l db p).1
        a b = true := by
  induction l with
  | nil => intro db p h; exact h
  | cons q rest ih =>
    intro db p h
    obtain ⟨s1, s2⟩ := q
    unfold processPairsLoop
    split
    · exact h
    · split
      · exact ih db p h
      · exact ih _ _ (processPairBody_mono fetch score site url t db s1 s2 h)

/-- When the budget covers the whole list and every fetch succeeds, a row
exists for every listed pair after the loop. -/
theorem processPairsLoop_all_exist (fetch : String → Except String (List (List ℕ)))
    (score : List (List ℕ) → List (List ℕ) → ℚ) (site url t : String)
    (l : List (Snapshot × Snapshot)) :
    ∀ (db : DB) (p : ℕ), l.length + p ≤ MAX_PAIRS_PER_SITE →
      (∀ q ∈ l, (∃ i, fetch q.1.screenshot_drive_id = Except.ok i) ∧
        (∃ i, fetch q.2.screenshot_drive_id = Except.ok i)) →
      ∀ q ∈ l,
        snapshot_pair_exists (processPairsLoop fetch score site url t l db p).1
          q.1.id q.2.id = true := by
  induction l with
  | nil =>
    intro db p _ _ q hq
    exact absurd hq (List.not_mem_nil q)
  | cons q0 rest ih =>
    intro db p hbud hf q hq
    obtain ⟨s1, s2⟩ := q0
    have hp : ¬ (MAX_PAIRS_PER_SITE ≤ p) := by
      simp only [List.length_cons, MAX_PAIRS_PER_SITE] at hbud ⊢
      omega
    unfold processPairsLoop
    rw [if_neg hp]
    by_cases hex : snapshot_pair_exists db s1.id s2.id = true
    · rw [if_pos hex]
      rcases List.mem_cons.mp hq with hq0 | hqr
      · rw [hq0]
        exact processPairsLoop_mono fetch score site url t rest db p hex
      · exact ih db p (by simp only [List.length_cons] at hbud; omega)
          (fun q' hq' => hf q' (List.mem_cons_of_mem _ hq')) q hqr
    · rw [if_neg hex]
      rcases List.mem_cons.mp hq with hq0 | hqr
      · rw [hq0]
        apply processPairsLoop_mono
        exact processPairBody_self fetch score site url t db s1 s2
          (hf (s1, s2) (List.mem_cons_self _ _)).1
          (hf (s1, s2) (List.mem_cons_self _ _)).2
      · exact ih _ _ (by simp only [List.length_cons] at hbud; omega)
          (fun q' hq' => hf q' (List.mem_cons_of_mem _ hq')) q hqr

/-- When every listed pair already has a row, the loop is a no-op. -/
theorem processPairsLoop_skip (fetch : String → Except String (List (List ℕ)))
    (score : List (List ℕ) → List (List ℕ) → ℚ) (site url t : String)
    (l : List (Snapshot × Snapshot)) :
    ∀ (db : DB) (p : ℕ),
      (∀ q ∈ l, snapshot_pair_exists db q.1.id q.2.id = true) →
      processPairsLoop fetch score site url t l db p = (db, p) := by
  induction l with
  | nil => intro db p _; rfl
  | cons q0 rest ih =>
    intro db p hall
    obtain ⟨s1, s2⟩ := q0
    unfold processPairsLoop
    by_cases hp : MAX_PAIRS_PER_SITE ≤ p
    · rw [if_pos hp]
    · rw [if_neg hp, if_pos (hall (s1, s2) (List.mem_cons_self _ _))]
      exact ih db p (fun q hq => hall q (List.mem_cons_of_mem _ hq))

/-- Both components of an adjacent pair are snapshots of the site. -/
theorem adjacentPairs_mem (snaps : List Snapshot) (q : Snapshot × Snapshot)
    (hq : q ∈ adjacentPairs snaps) : q.1 ∈ snaps ∧ q.2 ∈ snaps := by
  rw [adjacentPairs, List.mem_reverse] at hq
  obtain ⟨s1, s2⟩ := q
  have h := List.of_mem_zip hq
  exact ⟨h.1, List.drop_subset _ _ h.2⟩

/-- The database component of `processSite`. -/
theorem processSite_fst (fetch : String → Except String (List (List ℕ)))
    (score : List (List ℕ) → List (List ℕ) → ℚ) (site url t : String)
    (snaps : List Snapshot) (db : DB) :
    (processSite fetch score site url t snaps db).1 =
      if snaps.length < 2 then db
      else (processPairsLoop fetch score site url t (adjacentPairs snaps) db 0).1 := by
  unfold processSite
  split
  · rfl
  · dsimp only
    split <;> rfl

/-! ## C2: idempotent re-processing -/

/-- C2 (amended): a pair whose SnapshotPair row already exists is skipped
unconditionally (while the budget is not exhausted) — it is never re-scored
or overwritten; and when every unprocessed pair fits in the per-run budget
(at most 5 adjacent pairs, i.e. at most 6 snapshots) and every image fetch
succeeds, a second identical run is a no-op: the database is unchanged, so
no duplicate SnapshotPair rows and no additional SnapshotDiff rows are
created.  (With a deeper backlog the budget defers older pairs to later
runs, which then do add rows; see the counterexample.) -/
theorem c2_idempotent_rerun :
    (∀ (fetch : String → Except String (List (List ℕ)))
        (score : List (List ℕ) → List (List ℕ) → ℚ) (site url t : String)
        (s1 s2 : Snapshot) (rest : List (Snapshot × Snapshot)) (db : DB) (p : ℕ),
        p < MAX_PAIRS_PER_SITE →
        snapshot_pair_exists db s1.id s2.id = true →
        processPairsLoop fetch score site url t ((s1, s2) :: rest) db p =
          processPairsLoop fetch score site url t rest db p)
    ∧ (∀ (fetch : String → Except String (List (List ℕ)))
        (score : List (List ℕ) → List (List ℕ) → ℚ) (site url t1 t2 : String)
        (snaps : List Snapshot) (db : DB),
        snaps.length ≤ 6 →
        (∀ s ∈ snaps, ∃ img, fetch s.screenshot_drive_id = Except.ok img) →
        (processSite fetch score site url t2 snaps
            (processSite fetch score site url t1 snaps db).1).1 =
          (processSite fetch score site url t1 snaps db).1) := by
  constructor
  · intro fetch score site url t s1 s2 rest db p hp hex
    conv_lhs => rw [processPairsLoop]
    rw [if_neg (by omega : ¬ (MAX_PAIRS_PER_SITE ≤ p)), if_pos hex]
  · intro fetch score site url t1 t2 snaps db hlen hfetch
    rw [processSite_fst, processSite_fst]
    by_cases h2 : snaps.length < 2
    · rw [if_pos h2, if_pos h2]
    · rw [if_neg h2, if_neg h2]
      have hall : ∀ q ∈ adjacentPairs snaps,
          snapshot_pair_exists
            (processPairsLoop fetch score site url t1 (adjacentPairs snaps) db 0).1
            q.1.id q.2.id = true := by
        apply processPairsLoop_all_exist
        · have hl : (adjacentPairs snaps).length = min snaps.length (snaps.length - 1) := by
            simp [adjacentPairs]
          rw [hl]
          simp only [MAX_PAIRS_PER_SITE]
          omega
        · intro q' hq'
          have hm := adjacentPairs_mem snaps q' hq'
          exact ⟨hfetch q'.1 hm.1, hfetch q'.2 hm.2⟩
      rw [processPairsLoop_skip fetch score site url t2 (adjacentPairs snaps) _ 0 hall]

/-- Witness for C2: a three-snapshot site run twice from the empty database
leaves the database of the first run unchanged. -/
theorem c2_witness :
    (processSite fetchBW scoreHalf "ExampleSite" "https://example.test" "t2" snaps3
        (processSite fetchBW scoreHalf "ExampleSite" "https://example.test" "t1"
          snaps3 emptyDB).1).1 =
      (processSite fetchBW scoreHalf "ExampleSite" "https://example.test" "t1"
        snaps3 emptyDB).1 :=
  c2_idempotent_rerun.2 fetchBW scoreHalf "ExampleSite" "https://example.test"
    "t1" "t2" snaps3 emptyDB (by decide)
    (by
      intro s hs
      simp only [snaps3, List.mem_cons, List.not_mem_nil, or_false] at hs
      rcases hs with rfl | rfl | rfl
      · exact ⟨img4White, rfl⟩
      · exact ⟨img4Black, rfl⟩
      · exact ⟨img4White, rfl⟩)

/-- Counterexample for C2: over a seven-snapshot history (six adjacent
pairs) the first run persists only the newest five pairs (the per-site
budget), and a second identical run — though it skips every existing pair —
processes the remaining oldest pair and creates one more SnapshotPair row
and one more SnapshotDiff row, refuting "a second identical run creates no
duplicate SnapshotPair rows and no additional SnapshotDiff rows". -/
theorem c2_counterexample :
    (let r1 := processSite fetchBW scoreHalf "ExampleSite" "https://example.test"
        "t1" snaps7 emptyDB
     let r2 := processSite fetchBW scoreHalf "ExampleSite" "https://example.test"
        "t2" snaps7 r1.1
     r1.1.pairs.length = 5 ∧ r1.1.diffs.length = 5
       ∧ r2.1.pairs.length = 6 ∧ r2.1.diffs.length = 6) := by
  decide

/-! ## C3: per-pair failure isolation and the pair budget -/

/-- C3 (amended): a failure while fetching either image of a pair is caught
and leaves the database untouched for that pair — sibling pairs are still
processed and the pair row stays absent, to be retried on the next run —
and in the concrete five-pair site with an injected fetch error on exactly
the newest pair, four pairs are persisted, the failed pair is absent, and
the site finishes with the non-failure status "completed".  However the
failed pair does count toward the per-site pair budget (the counter is
incremented before the fetch); see the counterexample. -/
theorem c3_failure_isolation :
    (∀ (fetch : String → Except String (List (List ℕ)))
        (score : List (List ℕ) → List (List ℕ) → ℚ) (site url t : String)
        (db : DB) (s1 s2 : Snapshot) (e : String),
        (fetch s1.screenshot_drive_id = Except.error e ∨
         fetch s2.screenshot_drive_id = Except.error e) →
        processPairBody fetch score site url t db s1 s2 = db)
    ∧ (let r := processSite fetchBW scoreHalf "ExampleSite" "https://example.test"
          "t" snapsSixBad emptyDB
       r.1.pairs.length = 4
         ∧ snapshot_pair_exists r.1 5 6 = false
         ∧ snapshot_pair_exists r.1 1 2 = true
         ∧ snapshot_pair_exists r.1 2 3 = true
         ∧ snapshot_pair_exists r.1 3 4 = true
         ∧ snapshot_pair_exists r.1 4 5 = true
         ∧ r.2.2 = "completed") := by
  constructor
  · intro fetch score site url t db s1 s2 e h
    cases hf1 : fetch s1.screenshot_drive_id with
    | error e1 => simp only [processPairBody, hf1]
    | ok i1 =>
      rcases h with h | h
      · rw [hf1] at h; exact absurd h (by simp)
      · simp only [processPairBody, hf1, h]
  · decide

/-- Witness for C3: the failure-isolation conjunct applied to a concrete
pair whose second image reference cannot be fetched. -/
theorem c3_witness :
    processPairBody fetchBW scoreHalf "ExampleSite" "https://example.test" "t"
      emptyDB { id := 5, screenshot_drive_id := "white" }
      { id := 6, screenshot_drive_id := "missing" } = emptyDB :=
  c3_failure_isolation.1 fetchBW scoreHalf "ExampleSite" "https://example.test"
    "t" emptyDB { id := 5, screenshot_drive_id := "white" }
    { id := 6, screenshot_drive_id := "missing" } "Failed to load image"
    (Or.inr rfl)

/-- Counterexample for C3: over six adjacent pairs with a fetch error on the
newest pair, the run stops with the budget counter at 5 although only four
pairs were persisted, and the oldest pair — which would have been attempted
had the failed pair not counted — is left unprocessed.  This refutes "that
pair is abandoned without counting as processed toward the per-site pair
budget". -/
theorem c3_counterexample :
    (let r := processSite fetchBW scoreHalf "ExampleSite" "https://example.test"
        "t" snapsSevenBad emptyDB
     r.2.1 = 5 ∧ r.1.pairs.length = 4
       ∧ snapshot_pair_exists r.1 1 2 = false
       ∧ snapshot_pair_exists r.1 6 7 = false) := by
  decide

/-! ## C6 and C7: lemmas about the variant-key computation and the
clusterer -/

/-- Case analysis of `compute_variant_key`: the hash branch exactly when the
stripped heading or CTA is non-empty. -/
theorem compute_variant_key_cases (h c : String) (f : Option String) :
    compute_variant_key h c f =
      if pyStrip h = "" ∧ pyStrip c = "" then fallbackKey f
      else some (sha256Hex (utf8Bytes (pyLower (pyStrip h) ++ "|" ++ pyLower (pyStrip c)))) := by
  unfold compute_variant_key
  by_cases hh : pyStrip h = "" <;> by_cases hc : pyStrip c = "" <;>
    simp [hh, hc, pyLower_eq_empty_iff]

/-- The fallback branch yields no key exactly for an absent or empty
fallback. -/
theorem fallbackKey_eq_none_iff (f : Option String) :
    fallbackKey f = none ↔ (f = none ∨ f = some "") := by
  cases f with
  | none => simp [fallbackKey]
  | some fb => by_cases h : fb = "" <;> simp [fallbackKey, h]

/-- The member count of an updated bucket. -/
theorem updateVariant_count (v : Variant) (s : SnapRec) :
    (updateVariant v s).count = v.count + 1 := by
  unfold updateVariant
  dsimp only
  split <;> split <;> split <;> split <;> rfl

/-- The executable string comparison agrees with the lexicographic order on
character lists. -/
theorem pyStrLtChars_iff : ∀ as bs : List Char,
    pyStrLtChars as bs = true ↔ List.Lex (· < ·) as bs := by
  intro as
  induction as with
  | nil =>
    intro bs
    cases bs with
    | nil => simp [pyStrLtChars]
    | cons b bs => simp [pyStrLtChars]; exact List.Lex.nil
  | cons a as ih =>
    intro bs
    cases bs with
    | nil => simp [pyStrLtChars]
    | cons b bs =>
      unfold pyStrLtChars
      by_cases hab : a < b
      · simp only [if_pos hab, true_iff]
        exact List.Lex.rel hab
      · rw [if_neg hab]
        by_cases hba : b < a
        · rw [if_pos hba]
          constructor
          · intro h; exact absurd h (by simp)
          · intro h
            cases h with
            | cons h' => exact absurd hba (lt_irrefl _)
            | rel h' => exact absurd h' hab
        · rw [if_neg hba]
          have heq : a = b := le_antisymm (le_of_not_lt hba) (le_of_not_lt hab)
          subst heq
          rw [ih bs]
          constructor
          · exact List.Lex.cons
          · intro h
            cases h with
            | cons h' => exact h'
            | rel h' => exact absurd h' hab

/-- The executable string comparison agrees with the string order. -/
theorem pyStrLt_iff (a b : String) : pyStrLt a b = true ↔ a < b := by
  rw [String.lt_iff_toList_lt]
  exact pyStrLtChars_iff a.data b.data

/-- The first-seen timestamp of an updated bucket. -/
theorem updateVariant_first_ts (v : Variant) (s : SnapRec) :
    (updateVariant v s).first_ts =
      if pyStrLt s.captured_at v.first_ts = true then s.captured_at else v.first_ts := by
  unfold updateVariant
  dsimp only
  split <;> split <;> split <;> split <;> simp_all

/-- The last-seen timestamp of an updated bucket. -/
theorem updateVariant_last_ts (v : Variant) (s : SnapRec) :
    (updateVariant v s).last_ts =
      if pyStrLt v.last_ts s.captured_at = true then s.captured_at else v.last_ts := by
  unfold updateVariant
  dsimp only
  split <;> split <;> split <;> split <;> simp_all

/-- The example screenshot of an updated bucket. -/
theorem updateVariant_example (v : Variant) (s : SnapRec) :
    (updateVariant v s).example_screenshot_id =
      if pyStrLt v.last_ts s.captured_at = true then s.screenshot_drive_id
      else v.example_screenshot_id := by
  unfold updateVariant
  dsimp only
  split <;> split <;> split <;> split <;> simp_all

/-- The hero heading of an updated bucket. -/
theorem updateVariant_heading (v : Variant) (s : SnapRec) :
    (updateVariant v s).hero_heading =
      if s.dom_features.hero_heading ≠ "" ∧ v.hero_heading = "" then
        s.dom_features.hero_heading
      else v.hero_heading := by
  unfold updateVariant
  dsimp only
  split <;> split <;> split <;> split <;> simp_all

/-- The hero CTA of an updated bucket. -/
theorem updateVariant_cta (v : Variant) (s : SnapRec) :
    (updateVariant v s).hero_cta_text =
      if s.dom_features.hero_cta_text ≠ "" ∧ v.hero_cta_text = "" then
        s.dom_features.hero_cta_text
      else v.hero_cta_text := by
  unfold updateVariant
  dsimp only
  split <;> split <;> split <;> split <;> simp_all

/-- The lookup of a cons bucket list. -/
theorem lookupBucket_cons (k0 : String) (v0 : Variant)
    (rest : List (String × Variant)) (k : String) :
    lookupBucket ((k0, v0) :: rest) k =
      if k0 = k then some v0 else lookupBucket rest k := by
  unfold lookupBucket
  by_cases h : k0 = k <;> simp [List.find?_cons, h]

/-- The lookup after routing one snapshot into the bucket list. -/
theorem lookupBucket_bucketsInsert (vs : List (String × Variant)) (k k' : String)
    (s : SnapRec) :
    lookupBucket (bucketsInsert vs k' s) k =
      if k = k' then bucketStep (lookupBucket vs k) s else lookupBucket vs k := by
  induction vs with
  | nil =>
    by_cases h : k = k'
    · subst h
      simp [bucketsInsert, lookupBucket_cons, bucketStep, lookupBucket]
    · rw [show bucketsInsert [] k' s = [(k', updateVariant (initVariant s) s)] from rfl,
        lookupBucket_cons, if_neg (fun hh => h (Eq.symm hh)), if_neg h]
  | cons kv rest ih =>
    obtain ⟨k0, v0⟩ := kv
    unfold bucketsInsert
    by_cases h0 : k0 = k'
    · rw [if_pos h0]
      by_cases hk : k = k'
      · rw [if_pos hk]
        rw [lookupBucket_cons, lookupBucket_cons]
        have : k0 = k := by rw [h0, hk]
        rw [if_pos this, if_pos this, bucketStep]
      · rw [if_neg hk]
        rw [lookupBucket_cons, lookupBucket_cons]
        have : ¬ (k0 = k) := fun hh => hk (by rw [← hh, h0])
        rw [if_neg this, if_neg this]
    · rw [if_neg h0]
      by_cases hk : k = k'
      · rw [if_pos hk]
        rw [lookupBucket_cons, lookupBucket_cons]
        have : ¬ (k0 = k) := fun hh => h0 (by rw [hh, hk])
        rw [if_neg this, if_neg this, ih, if_pos hk]
      · rw [if_neg hk]
        rw [lookupBucket_cons, lookupBucket_cons]
        by_cases h0k : k0 = k
        · rw [if_pos h0k, if_pos h0k]
        · rw [if_neg h0k, if_neg h0k, ih, if_neg hk]

/-- The lookup of a bucket after folding a member list into the bucket
list equals the bucket fold of the members with that key. -/
theorem lookupBucket_build_aux (l : List SnapRec) :
    ∀ (vs : List (String × Variant)) (k : String),
      lookupBucket (l.foldl (fun vs s => bucketsInsert vs (variantKeyOf s) s) vs) k =
        (l.filter fun s => variantKeyOf s = k).foldl bucketStep (lookupBucket vs k) := by
  induction l with
  | nil => intro vs k; rfl
  | cons s l ih =>
    intro vs k
    rw [List.foldl_cons, ih]
    by_cases h : variantKeyOf s = k
    · rw [List.filter_cons_of_pos (by simpa using h), List.foldl_cons,
        lookupBucket_bucketsInsert, if_pos h.symm]
    · rw [List.filter_cons_of_neg (by simpa using h),
        lookupBucket_bucketsInsert, if_neg (fun hh => h hh.symm)]

/-- The bucket stored under a key is the bucket fold of the snapshots with
that key. -/
theorem lookupBucket_build (snaps : List SnapRec) (k : String) :
    lookupBucket (build_site_variants snaps) k =
      (snaps.filter fun s => variantKeyOf s = k).foldl bucketStep none := by
  unfold build_site_variants
  rw [lookupBucket_build_aux]
  rfl

/-- Folding members onto a present bucket stays within `updateVariant`. -/
theorem foldl_bucketStep_some (ms : List SnapRec) :
    ∀ v : Variant, ms.foldl bucketStep (some v) = some (ms.foldl updateVariant v) := by
  induction ms with
  | nil => intro v; rfl
  | cons s ms ih =>
    intro v
    rw [List.foldl_cons, List.foldl_cons]
    exact ih _

/-- The first non-empty value of a one-element list is that element. -/
theorem firstNonemptyStr_singleton (x : String) : firstNonemptyStr [x] = x := by
  by_cases h : x = "" <;> simp [firstNonemptyStr, List.find?_cons, h]

/-- Appending one value to a list only affects the first non-empty value
when the list has none. -/
theorem firstNonemptyStr_append_singleton (l : List String) (x : String) :
    firstNonemptyStr (l ++ [x]) =
      if firstNonemptyStr l ≠ "" then firstNonemptyStr l
      else if x ≠ "" then x else "" := by
  unfold firstNonemptyStr
  rw [List.find?_append]
  cases hf : List.find? (fun s => decide (s ≠ "")) l with
  | none =>
    by_cases hx : x = "" <;> simp [hf, List.find?_cons, hx]
  | some a =>
    have ha : a ≠ "" := by simpa using List.find?_some hf
    simp [hf, ha]

/-- The executable string comparison is irreflexive. -/
theorem pyStrLt_irrefl (a : String) : pyStrLt a a = false := by
  rw [← Bool.not_eq_true, pyStrLt_iff]
  exact lt_irrefl a

/-- The singleton bucket of one member. -/
theorem updateVariant_init_self (m : SnapRec) :
    (updateVariant (initVariant m) m).count = 1
    ∧ (updateVariant (initVariant m) m).first_ts = m.captured_at
    ∧ (updateVariant (initVariant m) m).last_ts = m.captured_at
    ∧ (updateVariant (initVariant m) m).example_screenshot_id = m.screenshot_drive_id
    ∧ (updateVariant (initVariant m) m).hero_heading = m.dom_features.hero_heading
    ∧ (updateVariant (initVariant m) m).hero_cta_text = m.dom_features.hero_cta_text := by
  refine ⟨?_, ?_, ?_, ?_, ?_, ?_⟩
  · rw [updateVariant_count]; rfl
  · rw [updateVariant_first_ts]; simp [initVariant, pyStrLt_irrefl]
  · rw [updateVariant_last_ts]; simp [initVariant, pyStrLt_irrefl]
  · rw [updateVariant_example]; simp [initVariant, pyStrLt_irrefl]
  · rw [updateVariant_heading]
    simp only [initVariant]
    split <;> rfl
  · rw [updateVariant_cta]
    simp only [initVariant]
    split <;> rfl

/-- One member extends the bucket invariants from `pre` to `pre ++ [s]`. -/
theorem bucketStep_inv (pre : List SnapRec) (v : Variant) (s : SnapRec)
    (h1 : v.count = pre.length)
    (h2 : v.first_ts ∈ pre.map SnapRec.captured_at)
    (h3 : ∀ t ∈ pre.map SnapRec.captured_at, v.first_ts ≤ t)
    (h4 : v.last_ts ∈ pre.map SnapRec.captured_at)
    (h5 : ∀ t ∈ pre.map SnapRec.captured_at, t ≤ v.last_ts)
    (h6 : ∃ m ∈ pre, m.captured_at = v.last_ts ∧
      v.example_screenshot_id = m.screenshot_drive_id)
    (h7 : v.hero_heading = firstNonemptyStr (pre.map fun r => r.dom_features.hero_heading))
    (h8 : v.hero_cta_text = firstNonemptyStr (pre.map fun r => r.dom_features.hero_cta_text)) :
    (updateVariant v s).count = (pre ++ [s]).length
    ∧ (updateVariant v s).first_ts ∈ (pre ++ [s]).map SnapRec.captured_at
    ∧ (∀ t ∈ (pre ++ [s]).map SnapRec.captured_at, (updateVariant v s).first_ts ≤ t)
    ∧ (updateVariant v s).last_ts ∈ (pre ++ [s]).map SnapRec.captured_at
    ∧ (∀ t ∈ (pre ++ [s]).map SnapRec.captured_at, t ≤ (updateVariant v s).last_ts)
    ∧ (∃ m ∈ pre ++ [s], m.captured_at = (updateVariant v s).last_ts ∧
        (updateVariant v s).example_screenshot_id = m.screenshot_drive_id)
    ∧ (updateVariant v s).hero_heading =
        firstNonemptyStr ((pre ++ [s]).map fun r => r.dom_features.hero_heading)
    ∧ (updateVariant v s).hero_cta_text =
        firstNonemptyStr ((pre ++ [s]).map fun r => r.dom_features.hero_cta_text) := by
  refine ⟨?_, ?_, ?_, ?_, ?_, ?_, ?_, ?_⟩
  · rw [updateVariant_count, h1]; simp
  · rw [updateVariant_first_ts, List.map_append]
    by_cases hlt : pyStrLt s.captured_at v.first_ts = true
    · rw [if_pos hlt]; exact List.mem_append_right _ (by simp)
    · rw [if_neg hlt]; exact List.mem_append_left _ h2
  · intro t ht
    rw [updateVariant_first_ts]
    rw [List.map_append] at ht
    rcases List.mem_append.mp ht with h | h
    · by_cases hlt : pyStrLt s.captured_at v.first_ts = true
      · rw [if_pos hlt]
        exact le_trans (le_of_lt ((pyStrLt_iff _ _).mp hlt)) (h3 t h)
      · rw [if_neg hlt]; exact h3 t h
    · simp only [List.map_cons, List.map_nil, List.mem_singleton] at h
      subst h
      by_cases hlt : pyStrLt s.captured_at v.first_ts = true
      · rw [if_pos hlt]
      · rw [if_neg hlt]
        exact le_of_not_lt fun hc => hlt ((pyStrLt_iff _ _).mpr hc)
  · rw [updateVariant_last_ts, List.map_append]
    by_cases hlt : pyStrLt v.last_ts s.captured_at = true
    · rw [if_pos hlt]; exact List.mem_append_right _ (by simp)
    · rw [if_neg hlt]; exact List.mem_append_left _ h4
  · intro t ht
    rw [updateVariant_last_ts]
    rw [List.map_append] at ht
    rcases List.mem_append.mp ht with h | h
    · by_cases hlt : pyStrLt v.last_ts s.captured_at = true
      · rw [if_pos hlt]
        exact le_trans (h5 t h) (le_of_lt ((pyStrLt_iff _ _).mp hlt))
      · rw [if_neg hlt]; exact h5 t h
    · simp only [List.map_cons, List.map_nil, List.mem_singleton] at h
      subst h
      by_cases hlt : pyStrLt v.last_ts s.captured_at = true
      · rw [if_pos hlt]
      · rw [if_neg hlt]
        exact le_of_not_lt fun hc => hlt ((pyStrLt_iff _ _).mpr hc)
  · rw [updateVariant_last_ts, updateVariant_example]
    by_cases hlt : pyStrLt v.last_ts s.captured_at = true
    · rw [if_pos hlt, if_pos hlt]
      exact ⟨s, List.mem_append_right _ (by simp), rfl, rfl⟩
    · rw [if_neg hlt, if_neg hlt]
      obtain ⟨m, hm, hts, hsid⟩ := h6
      exact ⟨m, List.mem_append_left _ hm, hts, hsid⟩
  · rw [updateVariant_heading, List.map_append, List.map_cons, List.map_nil,
      firstNonemptyStr_append_singleton, ← h7]
    by_cases hv : v.hero_heading = "" <;>
      by_cases hs : s.dom_features.hero_heading = "" <;> simp [hv, hs]
  · rw [updateVariant_cta, List.map_append, List.map_cons, List.map_nil,
      firstNonemptyStr_append_singleton, ← h8]
    by_cases hv : v.hero_cta_text = "" <;>
      by_cases hs : s.dom_features.hero_cta_text = "" <;> simp [hv, hs]

/-- Folding members onto a bucket preserves the bucket invariants. -/
theorem bucketFold_inv (ms : List SnapRec) :
    ∀ (pre : List SnapRec) (v : Variant),
      v.count = pre.length →
      v.first_ts ∈ pre.map SnapRec.captured_at →
      (∀ t ∈ pre.map SnapRec.captured_at, v.first_ts ≤ t) →
      v.last_ts ∈ pre.map SnapRec.captured_at →
      (∀ t ∈ pre.map SnapRec.captured_at, t ≤ v.last_ts) →
      (∃ m ∈ pre, m.captured_at = v.last_ts ∧
        v.example_screenshot_id = m.screenshot_drive_id) →
      v.hero_heading = firstNonemptyStr (pre.map fun r => r.dom_features.hero_heading) →
      v.hero_cta_text = firstNonemptyStr (pre.map fun r => r.dom_features.hero_cta_text) →
      (ms.foldl updateVariant v).count = (pre ++ ms).length
      ∧ (ms.foldl updateVariant v).first_ts ∈ (pre ++ ms).map SnapRec.captured_at
      ∧ (∀ t ∈ (pre ++ ms).map SnapRec.captured_at, (ms.foldl updateVariant v).first_ts ≤ t)
      ∧ (ms.foldl updateVariant v).last_ts ∈ (pre ++ ms).map SnapRec.captured_at
      ∧ (∀ t ∈ (pre ++ ms).map SnapRec.captured_at, t ≤ (ms.foldl updateVariant v).last_ts)
      ∧ (∃ m ∈ pre ++ ms, m.captured_at = (ms.foldl updateVariant v).last_ts ∧
          (ms.foldl updateVariant v).example_screenshot_id = m.screenshot_drive_id)
      ∧ (ms.foldl updateVariant v).hero_heading =
          firstNonemptyStr ((pre ++ ms).map fun r => r.dom_features.hero_heading)
      ∧ (ms.foldl updateVariant v).hero_cta_text =
          firstNonemptyStr ((pre ++ ms).map fun r => r.dom_features.hero_cta_text) := by
  induction ms with
  | nil =>
    intro pre v h1 h2 h3 h4 h5 h6 h7 h8
    simp only [List.foldl_nil, List.append_nil]
    exact ⟨h1, h2, h3, h4, h5, h6, h7, h8⟩
  | cons s ms ih =>
    intro pre v h1 h2 h3 h4 h5 h6 h7 h8
    obtain ⟨g1, g2, g3, g4, g5, g6, g7, g8⟩ :=
      bucketStep_inv pre v s h1 h2 h3 h4 h5 h6 h7 h8
    have := ih (pre ++ [s]) (updateVariant v s) g1 g2 g3 g4 g5 g6 g7 g8
    rw [List.foldl_cons]
    rw [show pre ++ s :: ms = (pre ++ [s]) ++ ms by simp]
    exact this

/-- The member count of a routed bucket list grows by one. -/
theorem totalVariantCount_bucketsInsert (vs : List (String × Variant)) (k : String)
    (s : SnapRec) :
    totalVariantCount (bucketsInsert vs k s) = totalVariantCount vs + 1 := by
  induction vs with
  | nil =>
    simp [bucketsInsert, totalVariantCount, updateVariant_count, initVariant]
  | cons kv rest ih =>
    obtain ⟨k0, v0⟩ := kv
    unfold bucketsInsert
    by_cases h : k0 = k
    · rw [if_pos h]
      simp [totalVariantCount, updateVariant_count]
      omega
    · rw [if_neg h]
      simp only [totalVariantCount, List.map_cons, List.sum_cons] at ih ⊢
      omega

/-- The member counts after folding a snapshot list sum to the number of
snapshots plus the counts already present. -/
theorem totalVariantCount_build_aux (l : List SnapRec) :
    ∀ vs : List (String × Variant),
      totalVariantCount (l.foldl (fun vs s => bucketsInsert vs (variantKeyOf s) s) vs) =
        totalVariantCount vs + l.length := by
  induction l with
  | nil => intro vs; simp
  | cons s l ih =>
    intro vs
    rw [List.foldl_cons, ih, totalVariantCount_bucketsInsert, List.length_cons]
    omega

/-! ## C6: keyless snapshots -/

/-- C6: `compute_variant_key` returns no key exactly when the stripped hero
heading and CTA are empty and the fallback digest is absent or empty; when
the stripped heading or CTA is non-empty the key is the SHA-256 hex digest
of the lower-cased stripped heading joined to the lower-cased stripped CTA
by the separator `"|"`; and downstream clustering never drops a snapshot:
the bucket member counts sum to the number of input snapshots, and a
keyless snapshot always has the shared catch-all bucket present. -/
theorem c6_keyless_behaviour :
    (∀ (h c : String) (f : Option String),
        compute_variant_key h c f = none ↔
          (pyStrip h = "" ∧ pyStrip c = "" ∧ (f = none ∨ f = some "")))
    ∧ (∀ (h c : String) (f : Option String), pyStrip h ≠ "" ∨ pyStrip c ≠ "" →
        compute_variant_key h c f =
          some (sha256Hex (utf8Bytes (pyLower (pyStrip h) ++ "|" ++ pyLower (pyStrip c)))))
    ∧ (∀ snaps : List SnapRec,
        totalVariantCount (build_site_variants snaps) = snaps.length)
    ∧ (∀ (snaps : List SnapRec) (s : SnapRec), s ∈ snaps →
        (s.dom_features.variant_key = none ∨ s.dom_features.variant_key = some "") →
        lookupBucket (build_site_variants snaps) "__no_variant_key__" ≠ none) := by
  refine ⟨?_, ?_, ?_, ?_⟩
  · intro h c f
    rw [compute_variant_key_cases]
    by_cases hh : pyStrip h = "" <;> by_cases hc : pyStrip c = "" <;>
      simp [hh, hc, fallbackKey_eq_none_iff]
  · intro h c f hne
    rw [compute_variant_key_cases, if_neg (by tauto)]
  · intro snaps
    unfold build_site_variants
    rw [totalVariantCount_build_aux]
    simp [totalVariantCount]
  · intro snaps s hs hkey
    rw [lookupBucket_build]
    have hk : variantKeyOf s = "__no_variant_key__" := by
      rcases hkey with h | h <;> simp [variantKeyOf, h]
    have hmem : s ∈ snaps.filter fun r => variantKeyOf r = "__no_variant_key__" := by
      rw [List.mem_filter]
      exact ⟨hs, by simp [hk]⟩
    cases hf : snaps.filter fun r => variantKeyOf r = "__no_variant_key__" with
    | nil => rw [hf] at hmem; exact absurd hmem (List.not_mem_nil s)
    | cons m ms =>
      rw [List.foldl_cons,
        show bucketStep none m = some (updateVariant (initVariant m) m) from rfl,
        foldl_bucketStep_some]
      simp

/-- Witness for C6: the hash branch on a concrete non-empty heading and the
catch-all bucket for a concrete keyless snapshot. -/
theorem c6_witness :
    compute_variant_key "Hero" "" none =
      some (sha256Hex (utf8Bytes (pyLower (pyStrip "Hero") ++ "|" ++ pyLower (pyStrip ""))))
    ∧ lookupBucket (build_site_variants snapRecsC7) "__no_variant_key__" ≠ none :=
  ⟨c6_keyless_behaviour.2.1 "Hero" "" none (Or.inl (by decide)),
   c6_keyless_behaviour.2.2.2 snapRecsC7 snapRecC (by decide) (Or.inl (by decide))⟩

/-! ## C7: per-bucket invariants of the clusterer -/

/-- C7: for every bucket the clusterer builds, the first-seen timestamp is
the minimum captured-at over the bucket's members, the last-seen timestamp
is the maximum, the count is the number of members, the example screenshot
is that of a member carrying the maximal (most recent) timestamp, and the
hero heading and CTA are the first non-empty values observed among the
members in input order. -/
theorem c7_bucket_invariants (snaps : List SnapRec) (k : String) (v : Variant)
    (h : lookupBucket (build_site_variants snaps) k = some v) :
    v.count = (snaps.filter fun s => variantKeyOf s = k).length
    ∧ v.first_ts ∈ (snaps.filter fun s => variantKeyOf s = k).map SnapRec.captured_at
    ∧ (∀ t ∈ (snaps.filter fun s => variantKeyOf s = k).map SnapRec.captured_at,
        v.first_ts ≤ t)
    ∧ v.last_ts ∈ (snaps.filter fun s => variantKeyOf s = k).map SnapRec.captured_at
    ∧ (∀ t ∈ (snaps.filter fun s => variantKeyOf s = k).map SnapRec.captured_at,
        t ≤ v.last_ts)
    ∧ (∃ m ∈ snaps.filter fun s => variantKeyOf s = k,
        m.captured_at = v.last_ts ∧ v.example_screenshot_id = m.screenshot_drive_id)
    ∧ v.hero_heading =
        firstNonemptyStr ((snaps.filter fun s => variantKeyOf s = k).map
          fun s => s.dom_features.hero_heading)
    ∧ v.hero_cta_text =
        firstNonemptyStr ((snaps.filter fun s => variantKeyOf s = k).map
          fun s => s.dom_features.hero_cta_text) := by
  rw [lookupBucket_build] at h
  cases hf : snaps.filter fun s => variantKeyOf s = k with
  | nil => rw [hf] at h; exact absurd h (by simp)
  | cons m ms =>
    rw [hf, List.foldl_cons,
      show bucketStep none m = some (updateVariant (initVariant m) m) from rfl,
      foldl_bucketStep_some] at h
    have hv : v = ms.foldl updateVariant (updateVariant (initVariant m) m) :=
      (Option.some.inj h).symm
    obtain ⟨b1, b2, b3, b4, b5, b6⟩ := updateVariant_init_self m
    have base := bucketFold_inv ms [m] (updateVariant (initVariant m) m)
      (by rw [b1]; rfl)
      (by rw [b2]; simp)
      (by intro t ht; simp at ht; rw [b2, ht])
      (by rw [b3]; simp)
      (by intro t ht; simp at ht; rw [b3, ht])
      (⟨m, by simp, by rw [b3], by rw [b4]⟩)
      (by rw [b5, List.map_cons, List.map_nil, firstNonemptyStr_singleton])
      (by rw [b6, List.map_cons, List.map_nil, firstNonemptyStr_singleton])
    rw [hv]
    simp only [List.singleton_append] at base
    exact base

/-- Witness for C7: the invariants instantiated on a concrete bucket of two
members with differing timestamps, an empty first heading and an empty
second CTA. -/
theorem c7_witness :
    c7Bucket.count = (snapRecsC7.filter fun s => variantKeyOf s = "k1").length
    ∧ c7Bucket.first_ts ∈ (snapRecsC7.filter fun s => variantKeyOf s = "k1").map
        SnapRec.captured_at
    ∧ (∀ t ∈ (snapRecsC7.filter fun s => variantKeyOf s = "k1").map
        SnapRec.captured_at, c7Bucket.first_ts ≤ t)
    ∧ c7Bucket.last_ts ∈ (snapRecsC7.filter fun s => variantKeyOf s = "k1").map
        SnapRec.captured_at
    ∧ (∀ t ∈ (snapRecsC7.filter fun s => variantKeyOf s = "k1").map
        SnapRec.captured_at, t ≤ c7Bucket.last_ts)
    ∧ (∃ m ∈ snapRecsC7.filter fun s => variantKeyOf s = "k1",
        m.captured_at = c7Bucket.last_ts ∧
        c7Bucket.example_screenshot_id = m.screenshot_drive_id)
    ∧ c7Bucket.hero_heading =
        firstNonemptyStr ((snapRecsC7.filter fun s => variantKeyOf s = "k1").map
          fun s => s.dom_features.hero_heading)
    ∧ c7Bucket.hero_cta_text =
        firstNonemptyStr ((snapRecsC7.filter fun s => variantKeyOf s = "k1").map
          fun s => s.dom_features.hero_cta_text) :=
  c7_bucket_invariants snapRecsC7 "k1" c7Bucket (by decide)

/-! ## C8 and C9: lemmas about the DOM extractor -/

/-- The running maximum of a candidate fold is the seed or a list member. -/
theorem foldl_choice_mem (rest : List Candidate) :
    ∀ c : Candidate,
      rest.foldl (fun b x => if b.hero_score < x.hero_score then x else b) c ∈
        c :: rest := by
  induction rest with
  | nil => intro c; simp
  | cons x rest ih =>
    intro c
    rw [List.foldl_cons]
    by_cases h : c.hero_score < x.hero_score
    · rw [if_pos h]
      exact List.mem_cons_of_mem c (ih x)
    · rw [if_neg h]
      rcases List.mem_cons.mp (ih c) with h1 | h1
      · rw [h1]; exact List.mem_cons_self _ _
      · exact List.mem_cons_of_mem _ (List.mem_cons_of_mem _ h1)

/-- The best candidate is one of the candidates. -/
theorem bestCandidate_mem (l : List Candidate) (b : Candidate)
    (h : bestCandidate l = some b) : b ∈ l := by
  cases l with
  | nil => simp [bestCandidate] at h
  | cons c rest =>
    simp only [bestCandidate, Option.some.injEq] at h
    rw [← h]
    exact foldl_choice_mem rest c

/-! ## C8: graceful degradation of the extractor -/

/-- Counterexample for C8: a body whose only candidate block has no
detectable heading and no CTA, yet the extracted hero heading is not the
empty string — the extractor falls back to the first 200 characters of the
block's text (weekly_report.py line 147), refuting "the extractor returns
all hero feature fields as empty strings". -/
theorem c8_counterexample :
    (∀ c ∈ extractCandidates (pruneNode c8Body), c.heading_text = "" ∧ c.cta_text = "")
    ∧ (extractCandidates (pruneNode c8Body)).length = 1
    ∧ (extract_dom_features c8Body).hero_heading ≠ "" := by
  refine ⟨by decide, by decide, by decide⟩

/-- C8 (amended): the extractor always returns well-formed string fields;
when there is no candidate block at all, every hero field is the empty
string; when candidates exist but none has a detectable heading or CTA, the
CTA fields are empty strings while the hero heading falls back to the first
200 characters of the best block's text (so it is not empty). -/
theorem c8_extractor_fields :
    (∀ body : HNode, extractCandidates (pruneNode body) = [] →
        (extract_dom_features body).hero_heading = ""
        ∧ (extract_dom_features body).hero_subheading = ""
        ∧ (extract_dom_features body).hero_cta_text = ""
        ∧ (extract_dom_features body).hero_cta_href = "")
    ∧ (∀ (body : HNode) (best : Candidate),
        bestCandidate (extractCandidates (pruneNode body)) = some best →
        (∀ c ∈ extractCandidates (pruneNode body),
          c.heading_text = "" ∧ c.cta_text = "" ∧ c.cta_href = "") →
        (extract_dom_features body).hero_cta_text = ""
        ∧ (extract_dom_features body).hero_cta_href = ""
        ∧ (extract_dom_features body).hero_heading = best.text.take 200) := by
  constructor
  · intro body hc
    simp only [extract_dom_features, hc, bestCandidate]
    exact ⟨by trivial, by trivial, by trivial, by trivial⟩
  · intro body best hbest hall
    obtain ⟨hh, hct, chref⟩ := hall best (bestCandidate_mem _ best hbest)
    simp only [extract_dom_features, hbest]
    refine ⟨hct, chref, ?_⟩
    unfold heroHeadingOf
    rw [if_neg (by simp [hh])]

/-- Witness for C8: both conjuncts of the amended claim applied to a body
with no candidates and to the concrete heading-less, CTA-less body. -/
theorem c8_witness :
    ((extract_dom_features emptyBody).hero_heading = ""
      ∧ (extract_dom_features emptyBody).hero_subheading = ""
      ∧ (extract_dom_features emptyBody).hero_cta_text = ""
      ∧ (extract_dom_features emptyBody).hero_cta_href = "")
    ∧ ((extract_dom_features c8Body).hero_cta_text = ""
      ∧ (extract_dom_features c8Body).hero_cta_href = ""
      ∧ (extract_dom_features c8Body).hero_heading = c8Cand.text.take 200) :=
  ⟨c8_extractor_fields.1 emptyBody rfl,
   c8_extractor_fields.2 c8Body c8Cand rfl (by decide)⟩

/-! ## C9: the sub-heading considers only the first paragraph -/

/-- Counterexample for C9: in a hero block whose first paragraph repeats
the heading and whose second paragraph differs from it, the extractor
returns an empty sub-heading although the first paragraph whose text
differs from the heading exists — refuting "the extracted sub-heading is
the first paragraph inside the hero block whose text differs from the hero
heading text, and the empty string when no such paragraph exists". -/
theorem c9_counterexample :
    (extract_dom_features c9Body).hero_subheading = ""
    ∧ ((findAll ["p"] c9Section).map getTextNorm).find?
        (fun t => t ≠ (extract_dom_features c9Body).hero_heading) =
      some "A second different paragraph" := by
  refine ⟨by decide, by decide⟩

/-- C9 (amended): the sub-heading is derived from the first paragraph of
the hero block only — it equals that paragraph's text when it differs from
the hero heading and is empty otherwise (in particular it is empty whenever
the first paragraph repeats the heading, even if a later paragraph
differs), and it is empty when there is no paragraph or no hero block. -/
theorem c9_subheading_first_p_only (body : HNode) :
    (extract_dom_features body).hero_subheading =
      match bestCandidate (extractCandidates (pruneNode body)) with
      | some best =>
        match ((findAll ["p"] best.el).map getTextNorm).head? with
        | some t => if t ≠ (extract_dom_features body).hero_heading then t else ""
        | none => ""
      | none => "" := by
  cases hb : bestCandidate (extractCandidates (pruneNode body)) with
  | none => simp only [extract_dom_features, hb]
  | some best =>
    simp only [extract_dom_features, hb]
    unfold heroSubheadingOf findFirst
    rw [List.head?_map]
    cases hp : (findAll ["p"] best.el).head? with
    | none => rfl
    | some p => rfl
